import Mathlib

/-!
# A shallow embedding of the block allocator (`memory_allocator/main.cpp`, `sbrk.cpp`)

The allocator keeps all of its state in globals and in `Block` headers that it
reaches through raw pointers.  The embedding keeps the same shape:

* a pointer is a 64-bit word, held as a `Nat`, and `0` is `nullptr`;
* `size_t` and pointer arithmetic wrap at `2^64`;
* memory is a store from header address to the three header fields.  Every header
  address the program forms is a mapping base plus a multiple of
  `sizeof(Block) * 8`, so two different headers never share bytes;
* memory that was never written reads as zero, as freshly mapped pages do;
* an access through `nullptr`, a store outside the mapped regions, an index outside
  the bucket table and an exhausted loop budget are results of their own (`Fault`).
  The regions are those `_sbrk` has mapped (`Heap.mapped`; none is ever unmapped).
  The one place where the program forms a block address of its own is `split`, and
  there the store is checked against them; every other access goes through a block
  that `alloc` returned or that a list holds.  Mappings made by anything else
  (`main`, the loader) are not part of the state: a store of `split` that lands in
  one of them counts as a fault as well;
* `mmap` is the operating system: the address it returns at its `k`-th call is a
  parameter (`OS.mmapAddr`).  `_sbrk` has no `return` on its last path; the word
  its caller reads there is a parameter as well (`OS.indeterminate`).

The target is the LP64 layout the demonstration in `main` asserts
(`sizeof(word_t) = 8`): `sizeof(Block) = 32`, `sizeof(Block*) = 8`.
-/

namespace MemoryAllocator

/-- Number of values of a 64-bit word (`size_t`, `intptr_t`, pointers). -/
def W : Nat := 2 ^ 64

/-- The value of `sizeof(word_t)`. -/
def sizeofWord : Nat := 8

/-- The value of `sizeof(Block)`: size (8), used (1, padded to 8), next (8), data[1] (8). -/
def sizeofBlock : Nat := 32

/-- The value of `sizeof(block)` for `Block * block`. -/
def sizeofPtr : Nat := 8

/-- The value of `sizeof(std::declval<Block>().data)`. -/
def sizeofData : Nat := 8

/-- Header overhead `sizeof(Block) - sizeof(data)`, the offset of `data` in a `Block`. -/
def headerSize : Nat := sizeofBlock - sizeofData

/-- The capacity `arenaSize` of `sbrk.cpp`: `4 * 1024 * 1024`. -/
def arenaSize : Nat := 4 * 1024 * 1024

/-- The header fields of `struct Block`. -/
structure Block where
  size : Nat
  used : Bool
  next : Nat
  deriving DecidableEq

/-- The contents of a header in zero-filled memory. -/
def Block.zero : Block := ⟨0, false, 0⟩

/-- The enumeration `SearchMode`. -/
inductive SearchMode where
  | FirstFit
  | NextFit
  | BestFit
  | FreeList
  | SegregatedList
  deriving DecidableEq

/-- Ways in which a call does not return normally. -/
inductive Fault where
  | nullDeref
  | unmapped
  | outOfBounds
  | outOfFuel
  deriving DecidableEq

/-- The operating system as the program sees it. -/
structure OS where
  /-- Address returned by the `k`-th call of `mmap` that `_sbrk` makes (counted from 0). -/
  mmapAddr : Nat → Nat
  /-- Word read by the caller of `_sbrk` when the call that made the `k`-th
  `mmap` ends without a `return`. -/
  indeterminate : Nat → Nat

/-- The globals of `main.cpp` and `sbrk.cpp`, the header store, the number of
`mmap` calls made so far and the bases of the regions they mapped. -/
structure Heap where
  mem : Nat → Block
  heapStart : Nat
  top : Nat
  searchStart : Nat
  searchMode : SearchMode
  free_list : List Nat
  segregatedLists : List Nat
  arena : Nat
  _brk : Nat
  mmapCalls : Nat
  mapped : List Nat

/-- The state at program start after `init(mode)`: all pointers null, nothing mapped
(the source starts in mode `FreeList`). -/
def Heap.empty (mode : SearchMode) : Heap :=
  { mem := fun _ => Block.zero
    heapStart := 0
    top := 0
    searchStart := 0
    searchMode := mode
    free_list := []
    segregatedLists := [0, 0, 0, 0, 0, 0]
    arena := 0
    _brk := 0
    mmapCalls := 0
    mapped := [] }

/-- Store `p->size = v`. -/
def Heap.setSize (s : Heap) (p v : Nat) : Heap :=
  { s with mem := fun a => if a = p then { s.mem a with size := v } else s.mem a }

/-- Store `p->used = v`. -/
def Heap.setUsed (s : Heap) (p : Nat) (v : Bool) : Heap :=
  { s with mem := fun a => if a = p then { s.mem a with used := v } else s.mem a }

/-- Store `p->next = v`. -/
def Heap.setNext (s : Heap) (p v : Nat) : Heap :=
  { s with mem := fun a => if a = p then { s.mem a with next := v } else s.mem a }

/-- Source `align`: `(n + sizeof(word_t) - 1) & ~(sizeof(word_t) - 1)`. -/
def align (n : Nat) : Nat :=
  ((n + sizeofWord - 1) % W) &&& (W - 1 - (sizeofWord - 1))

/-- Source `allocSize`: `size + sizeof(Block) - sizeof(data)` in `size_t`.  The
difference is taken before the reduction; it is exact because
`sizeof(data) ≤ sizeof(Block)`. -/
def allocSize (size : Nat) : Nat :=
  (size + sizeofBlock - sizeofData) % W

/-- Address of `block->data`. -/
def dataOf (block : Nat) : Nat :=
  (block + headerSize) % W

/-- Source `getHeader`: `(char*)data + sizeof(data) - sizeof(Block)`.  Taking
`sizeof(Block)` off a 64-bit pointer is adding `2^64 - sizeof(Block)`. -/
def getHeader (data : Nat) : Nat :=
  (W - sizeofBlock + (data + sizeofData)) % W

/-- Source `_sbrk`.  Every call maps a new region first and points `_brk` at it
and `arena` at its end (`_brk + arenaSize`).  The result is the returned word;
`W - 1` is `(void*)-1`. -/
def _sbrk (os : OS) (s : Heap) (increment : Nat) : Nat × Heap :=
  let b := os.mmapAddr s.mmapCalls % W
  let s1 : Heap :=
    { s with _brk := b, arena := (arenaSize + b) % W, mmapCalls := s.mmapCalls + 1,
             mapped := b :: s.mapped }
  if increment = 0 then (b, s1)
  else if (increment + b) % W > s1.arena then (W - 1, s1)
  else (os.indeterminate s.mmapCalls % W, { s1 with _brk := (b + increment) % W })

/-- Source `requestFromOS`: the result is `nullptr` (0) when the second `_sbrk`
call answers `(void*)-1`. -/
def requestFromOS (os : OS) (s : Heap) (size : Nat) : Nat × Heap :=
  let r1 := _sbrk os s 0
  let r2 := _sbrk os r1.2 (allocSize size)
  if r2.1 = W - 1 then (0, r2.2) else (r1.1, r2.2)

/-- Source `resetHeap`.  The call `brk(heapStart)` is the C library's `brk`; it
touches none of the program's variables (the break the program uses is its own
`_brk`), so it leaves the state as it is. -/
def resetHeap (s : Heap) : Heap :=
  if s.heapStart = 0 then s
  else { s with heapStart := 0, top := 0, searchStart := 0 }

/-- Source `init`. -/
def init (s : Heap) (mode : SearchMode) : Heap :=
  resetHeap { s with searchMode := mode }

/-- The loop of source `firstFit`, from `block`. -/
def firstFitLoop (s : Heap) (size : Nat) : Nat → Nat → Except Fault Nat
  | 0, _ => .error .outOfFuel
  | fuel + 1, block =>
    if block = 0 then .ok 0
    else if (s.mem block).used || decide ((s.mem block).size < size) then
      firstFitLoop s size fuel (s.mem block).next
    else .ok block

/-- Source `firstFit`. -/
def firstFit (fuel : Nat) (s : Heap) (size : Nat) : Except Fault Nat :=
  firstFitLoop s size fuel s.heapStart

/-- The loop of source `nextFit`, with `end` the cursor at entry. -/
def nextFitLoop (size end_ : Nat) : Nat → Heap → Nat → Except Fault (Nat × Heap)
  | 0, _, _ => .error .outOfFuel
  | fuel + 1, s, block =>
    if block = 0 then .ok (0, s)
    else
      let block1 :=
        if (s.mem block).used || decide ((s.mem block).size < size) then (s.mem block).next
        else block
      if block1 = 0 then nextFitLoop size end_ fuel s s.heapStart
      else if block1 = end_ then .ok (0, s)
      else
        let ss := (s.mem block1).next
        .ok (block1, { s with searchStart := if ss = 0 then s.heapStart else ss })

/-- Source `nextFit`. -/
def nextFit (fuel : Nat) (s : Heap) (size : Nat) : Except Fault (Nat × Heap) :=
  nextFitLoop size s.searchStart fuel s s.searchStart

/-- The loop of source `bestFit`.  After the conditional advance `block` can be
null; both branches that follow read `block->next`. -/
def bestFitLoop (s : Heap) (size : Nat) : Nat → Nat → Nat → Except Fault Nat
  | 0, _, _ => .error .outOfFuel
  | fuel + 1, block, fit =>
    if block = 0 then .ok fit
    else
      let block1 :=
        if (s.mem block).used || decide ((s.mem block).size < size) then (s.mem block).next
        else block
      if fit = 0 then
        if block1 = 0 then .error .nullDeref
        else bestFitLoop s size fuel (s.mem block1).next block1
      else if block1 = 0 then .error .nullDeref
      else if (s.mem fit).next > (s.mem block1).next then
        bestFitLoop s size fuel (s.mem block1).next block1
      else bestFitLoop s size fuel (s.mem block1).next fit

/-- Source `bestFit`. -/
def bestFit (fuel : Nat) (s : Heap) (size : Nat) : Except Fault Nat :=
  bestFitLoop s size fuel s.heapStart 0

/-- Whether the `headerSize` bytes of the header fields at `p` lie inside one of the
regions mapped so far (each is `arenaSize` bytes from its base). -/
def Heap.headerMapped (s : Heap) (p : Nat) : Bool :=
  s.mapped.any (fun base => decide (base ≤ p) && decide (p + headerSize ≤ arenaSize + base))

/-- Source `canSplit`: `block->size > size + 2 * sizeof(Block) - 2 * sizeof(word_t)`
(the difference is exact before the reduction to 64 bits). -/
def canSplit (s : Heap) (block size : Nat) : Bool :=
  decide ((s.mem block).size > (size + 2 * sizeofBlock - 2 * sizeofWord) % W)

/-- Source `split`.  `block + k` on a `Block *` advances by `k * sizeof(Block)`
bytes, with `k = size + sizeof(block) - sizeof(word_t)`.  The new size is
`block->size - size - (sizeof(block) * 2 - 2 * sizeof(word_t))` in `size_t`: the
first difference wraps (hence `+ W`), the constant taken off last is `16 - 16`.
The stores through `p` fault when `p` is null or its header lies outside every
mapped region. -/
def split (s : Heap) (block size : Nat) : Except Fault Heap :=
  let p := (block + sizeofBlock * ((size + sizeofPtr - sizeofWord) % W)) % W
  if p = 0 then .error .nullDeref
  else if s.headerMapped p = false then .error .unmapped
  else
    let s1 := s.setSize p
      (((s.mem block).size + W - size - (sizeofPtr * 2 - 2 * sizeofWord)) % W)
    let s2 := s1.setUsed p false
    let s3 := s2.setNext p (s2.mem block).next
    .ok (s3.setNext block p)

/-- Source `listAllocate`, called on a non-null block. -/
def listAllocate (s : Heap) (block size : Nat) : Except Fault (Nat × Heap) :=
  match (if canSplit s block size then split s block size else .ok s) with
  | .error e => .error e
  | .ok s1 => .ok (block, (s1.setUsed block true).setSize block size)

/-- The range-for of source `freeList` over the entries not yet visited.  The
entry is read before `free_list.remove(block)` erases every node equal to it. -/
def freeListScan (s : Heap) (size : Nat) : List Nat → Except Fault (Nat × Heap)
  | [] => .ok (0, s)
  | block :: rest =>
    if block = 0 then .error .nullDeref
    else if (s.mem block).size < size then freeListScan s size rest
    else listAllocate { s with free_list := s.free_list.filter (fun x => x != block) } block size

/-- Source `freeList`. -/
def freeList (s : Heap) (size : Nat) : Except Fault (Nat × Heap) :=
  freeListScan s size s.free_list

/-- Source `getBucket`: `size / sizeof(word_t) - 1` in `size_t` (taking 1 off is
adding `2^64 - 1`), converted to `int`. -/
def getBucket (size : Nat) : Int :=
  let v : Nat := ((W - 1 + size / sizeofWord) % W) % 2 ^ 32
  if v < 2 ^ 31 then (v : Int) else (v : Int) - 2 ^ 32

/-- Source `segregatedFit`: first fit over the list that starts in the bucket. -/
def segregatedFit (fuel : Nat) (s : Heap) (size : Nat) : Except Fault Nat :=
  let bucket := getBucket size
  if bucket < 0 ∨ (s.segregatedLists.length : Int) ≤ bucket then .error .outOfBounds
  else firstFit fuel { s with heapStart := s.segregatedLists.getD bucket.toNat 0 } size

/-- Source `findBlock`. -/
def findBlock (fuel : Nat) (s : Heap) (size : Nat) : Except Fault (Nat × Heap) :=
  match s.searchMode with
  | .FirstFit => (firstFit fuel s size).map (fun b => (b, s))
  | .NextFit => nextFit fuel s size
  | .BestFit => (bestFit fuel s size).map (fun b => (b, s))
  | .FreeList => freeList s size
  | .SegregatedList => (segregatedFit fuel s size).map (fun b => (b, s))

/-- Source `canCoalesce`, called on a non-null block: `block->next && !block->next->used`. -/
def canCoalesce (s : Heap) (block : Nat) : Bool :=
  decide ((s.mem block).next ≠ 0) && !(s.mem (s.mem block).next).used

/-- Source `coalesce`. -/
def coalesce (s : Heap) (block : Nat) : Heap :=
  let p := (s.mem block).next
  let s1 := s.setNext block (s.mem (s.mem block).next).next
  s1.setSize block (((s1.mem block).size + (s1.mem p).size) % W)

/-- Lines 287-300 of source `alloc`: the header writes and list links for the block
that `requestFromOS` returned. -/
def linkBlock (s : Heap) (block size : Nat) : Heap :=
  let s1 := (s.setSize block size).setUsed block true
  let s2 : Heap := if s1.heapStart = 0 then { s1 with heapStart := block } else s1
  let s3 : Heap := if s2.top ≠ 0 then s2.setNext s2.top block else s2
  { s3 with top := block }

/-- The part of source `alloc` after a failed search (lines 285-302).  The first
write, `block->size = size`, goes through `block` unchecked. -/
def allocFromOS (os : OS) (s : Heap) (size : Nat) : Except Fault (Nat × Heap) :=
  let r := requestFromOS os s size
  if r.1 = 0 then .error .nullDeref
  else .ok (dataOf r.1, linkBlock r.2 r.1 size)

/-- Source `alloc`: the returned pointer and the state after the call. -/
def alloc (fuel : Nat) (os : OS) (s : Heap) (size : Nat) : Except Fault (Nat × Heap) :=
  let size := align size
  match findBlock fuel s size with
  | .error e => .error e
  | .ok (block, s1) =>
    if block ≠ 0 then .ok (dataOf block, s1)
    else allocFromOS os s1 size

/-- Lines 311-315 of source `free`, for the header `block` of the pointer. -/
def freeBlock (s : Heap) (block : Nat) : Heap :=
  let s1 := if canCoalesce s block then coalesce s block else s
  let s2 := s1.setUsed block false
  { s2 with free_list := s2.free_list ++ [block] }

/-- Source `free`. -/
def free (s : Heap) (data : Nat) : Except Fault Heap :=
  let block := getHeader data
  if block = 0 then .error .nullDeref
  else .ok (freeBlock s block)

/-! ## Call sequences, the environment, and the properties under study -/

/-- What the environment must grant for the first `n` calls of `mmap`: each call
succeeds with a page-aligned, non-null address in the lower half of the address
space, the mapped regions (none is ever unmapped) are pairwise disjoint, and the
word read after a `_sbrk` call that ends without `return` is not `(void*)-1`. -/
def OS.wellBehaved (os : OS) (n : Nat) : Prop :=
  (∀ k, k < n → os.mmapAddr k ≠ 0 ∧ os.mmapAddr k % 4096 = 0 ∧
      os.mmapAddr k + arenaSize ≤ 2 ^ 63 ∧ os.indeterminate k % W ≠ W - 1) ∧
  (∀ j, j < n → ∀ i, i < j →
      os.mmapAddr i + arenaSize ≤ os.mmapAddr j ∨ os.mmapAddr j + arenaSize ≤ os.mmapAddr i)

instance (os : OS) (n : Nat) : Decidable (os.wellBehaved n) := by
  unfold OS.wellBehaved
  infer_instance

/-- A concrete environment: mappings are handed out downwards from
`0x7f0000000000`, one `arenaSize` apart, and the word read after a `_sbrk` call that
ends without `return` is an address inside the mapping that call made. -/
def linuxOS : OS :=
  { mmapAddr := fun k => 0x7f0000000000 - (k + 1) * arenaSize
    indeterminate := fun k => 0x7f0000000000 - (k + 1) * arenaSize + 32 }

/-- A call of the public interface; `free i` frees the pointer that the `i`-th
`alloc` of the sequence returned. -/
inductive Call where
  | alloc (n : Nat)
  | free (i : Nat)

/-- Run a sequence of calls, collecting the pointers returned by `alloc`. -/
def run (fuel : Nat) (os : OS) : List Call → Heap × List Nat → Except Fault (Heap × List Nat)
  | [], st => .ok st
  | .alloc n :: cs, (s, ps) =>
    match alloc fuel os s n with
    | .error e => .error e
    | .ok (p, s1) => run fuel os cs (s1, ps ++ [p])
  | .free i :: cs, (s, ps) =>
    match free s (ps.getD i 0) with
    | .error e => .error e
    | .ok s1 => run fuel os cs (s1, ps)

/-- The state in which a run ended (the start state of the program if it faulted). -/
def heapOf (r : Except Fault (Heap × List Nat)) : Heap :=
  match r with
  | .ok (s, _) => s
  | .error _ => Heap.empty .FreeList

/-- The pointers a run returned. -/
def pointersOf (r : Except Fault (Heap × List Nat)) : List Nat :=
  match r with
  | .ok (_, ps) => ps
  | .error _ => []

/-- The merge test of `main` (lines 325-331) for request sizes `a`, `b`, `c` in mode
`mode`: the three pointers, the state before the last `alloc` and the state after it. -/
def mergeTest (fuel : Nat) (os : OS) (mode : SearchMode) (a b c : Nat) :
    Except Fault (Nat × Nat × Nat × Heap × Heap) :=
  match alloc fuel os (Heap.empty mode) a with
  | .error e => .error e
  | .ok (p1, s1) =>
    match alloc fuel os s1 b with
    | .error e => .error e
    | .ok (p2, s2) =>
      match free s2 p2 with
      | .error e => .error e
      | .ok s3 =>
        match free s3 p1 with
        | .error e => .error e
        | .ok s4 =>
          match alloc fuel os s4 c with
          | .error e => .error e
          | .ok (p3, s5) => .ok (p1, p2, p3, s4, s5)

/-- The loop `p = alloc(n); free(p)` run `k` times: the pointers in order and the
final state. -/
def roundTrips (fuel : Nat) (os : OS) (n : Nat) : Nat → Heap → Except Fault (List Nat × Heap)
  | 0, s => .ok ([], s)
  | k + 1, s =>
    match alloc fuel os s n with
    | .error e => .error e
    | .ok (p, s1) =>
      match free s1 p with
      | .error e => .error e
      | .ok s2 =>
        match roundTrips fuel os n k s2 with
        | .error e => .error e
        | .ok (ps, s3) => .ok (p :: ps, s3)

/-- The `k`-th block of the master list: `k` steps along `next` from `heapStart`
(0 once the list has ended). -/
def nthBlock (s : Heap) : Nat → Nat
  | 0 => s.heapStart
  | k + 1 => if nthBlock s k = 0 then 0 else (s.mem (nthBlock s k)).next

/-- Block `b` and its successor are both free. -/
def adjacentFree (s : Heap) (b : Nat) : Prop :=
  b ≠ 0 ∧ (s.mem b).used = false ∧ (s.mem b).next ≠ 0 ∧ (s.mem (s.mem b).next).used = false

instance (s : Heap) (b : Nat) : Decidable (adjacentFree s b) := by
  unfold adjacentFree
  infer_instance

/-- No block on the master list is free together with its successor. -/
def noAdjacentFree (s : Heap) : Prop :=
  ∀ k, ¬ adjacentFree s (nthBlock s k)

/-- Block `b` ends where its successor begins, or at the break when it is the tail. -/
def tiledAt (s : Heap) (b : Nat) : Prop :=
  if (s.mem b).next = 0 then b + headerSize + (s.mem b).size = s._brk
  else (s.mem b).next = b + headerSize + (s.mem b).size

instance (s : Heap) (b : Nat) : Decidable (tiledAt s b) := by
  unfold tiledAt
  infer_instance

/-- Every block on the master list satisfies `tiledAt`. -/
def tiled (s : Heap) : Prop :=
  ∀ k, nthBlock s k ≠ 0 → tiledAt s (nthBlock s k)

/-- The heap after a completed round trip of the loop `p = alloc(n); free(p)`: the
master list is the single free block `X` of size `A`, two mappings have been made,
and `free_list` holds nothing but `X` (and holds it in `FreeList` mode). -/
def settled (X A : Nat) (mode : SearchMode) (s : Heap) : Prop :=
  s.searchMode = mode ∧ s.heapStart = X ∧ s.mmapCalls = 2 ∧
  (s.mem X).size = A ∧ (s.mem X).used = false ∧ (s.mem X).next = 0 ∧
  (∀ x ∈ s.free_list, x = X) ∧ (mode = .FreeList → s.free_list ≠ [])

/-- Block `b` is a candidate for a request of `size`: free and large enough. -/
def fits (s : Heap) (size b : Nat) : Prop :=
  (s.mem b).used = false ∧ size ≤ (s.mem b).size

instance (s : Heap) (size b : Nat) : Decidable (fits s size b) := by
  unfold fits
  infer_instance

/-- The block reached from `b` after `k` links along `next` (0 once the list has
ended). -/
def walk (s : Heap) : Nat → Nat → Nat
  | b, 0 => b
  | b, k + 1 => if b = 0 then 0 else walk s (s.mem b).next k

/-! ## Field lemmas for the header stores -/

@[simp]
theorem setSize_heapStart (s : Heap) (p v : Nat) : (s.setSize p v).heapStart = s.heapStart := rfl

@[simp]
theorem setSize_top (s : Heap) (p v : Nat) : (s.setSize p v).top = s.top := rfl

@[simp]
theorem setSize_searchStart (s : Heap) (p v : Nat) : (s.setSize p v).searchStart = s.searchStart := rfl

@[simp]
theorem setSize_searchMode (s : Heap) (p v : Nat) : (s.setSize p v).searchMode = s.searchMode := rfl

@[simp]
theorem setSize_free_list (s : Heap) (p v : Nat) : (s.setSize p v).free_list = s.free_list := rfl

@[simp]
theorem setSize_segregatedLists (s : Heap) (p v : Nat) : (s.setSize p v).segregatedLists = s.segregatedLists := rfl

@[simp]
theorem setSize_arena (s : Heap) (p v : Nat) : (s.setSize p v).arena = s.arena := rfl

@[simp]
theorem setSize_brk (s : Heap) (p v : Nat) : (s.setSize p v)._brk = s._brk := rfl

@[simp]
theorem setSize_mmapCalls (s : Heap) (p v : Nat) : (s.setSize p v).mmapCalls = s.mmapCalls := rfl

@[simp]
theorem setSize_mapped (s : Heap) (p v : Nat) : (s.setSize p v).mapped = s.mapped := rfl

@[simp]
theorem setSize_mem_size (s : Heap) (p v : Nat) (a : Nat) :
    ((s.setSize p v).mem a).size = if a = p then v else (s.mem a).size := by
  unfold Heap.setSize
  by_cases h : a = p <;> simp [h]

@[simp]
theorem setSize_mem_used (s : Heap) (p v : Nat) (a : Nat) :
    ((s.setSize p v).mem a).used = (s.mem a).used := by
  unfold Heap.setSize
  by_cases h : a = p <;> simp [h]

@[simp]
theorem setSize_mem_next (s : Heap) (p v : Nat) (a : Nat) :
    ((s.setSize p v).mem a).next = (s.mem a).next := by
  unfold Heap.setSize
  by_cases h : a = p <;> simp [h]

@[simp]
theorem setUsed_heapStart (s : Heap) (p : Nat) (v : Bool) : (s.setUsed p v).heapStart = s.heapStart := rfl

@[simp]
theorem setUsed_top (s : Heap) (p : Nat) (v : Bool) : (s.setUsed p v).top = s.top := rfl

@[simp]
theorem setUsed_searchStart (s : Heap) (p : Nat) (v : Bool) : (s.setUsed p v).searchStart = s.searchStart := rfl

@[simp]
theorem setUsed_searchMode (s : Heap) (p : Nat) (v : Bool) : (s.setUsed p v).searchMode = s.searchMode := rfl

@[simp]
theorem setUsed_free_list (s : Heap) (p : Nat) (v : Bool) : (s.setUsed p v).free_list = s.free_list := rfl

@[simp]
theorem setUsed_segregatedLists (s : Heap) (p : Nat) (v : Bool) : (s.setUsed p v).segregatedLists = s.segregatedLists := rfl

@[simp]
theorem setUsed_arena (s : Heap) (p : Nat) (v : Bool) : (s.setUsed p v).arena = s.arena := rfl

@[simp]
theorem setUsed_brk (s : Heap) (p : Nat) (v : Bool) : (s.setUsed p v)._brk = s._brk := rfl

@[simp]
theorem setUsed_mmapCalls (s : Heap) (p : Nat) (v : Bool) : (s.setUsed p v).mmapCalls = s.mmapCalls := rfl

@[simp]
theorem setUsed_mapped (s : Heap) (p : Nat) (v : Bool) : (s.setUsed p v).mapped = s.mapped := rfl

@[simp]
theorem setUsed_mem_size (s : Heap) (p : Nat) (v : Bool) (a : Nat) :
    ((s.setUsed p v).mem a).size = (s.mem a).size := by
  unfold Heap.setUsed
  by_cases h : a = p <;> simp [h]

@[simp]
theorem setUsed_mem_used (s : Heap) (p : Nat) (v : Bool) (a : Nat) :
    ((s.setUsed p v).mem a).used = if a = p then v else (s.mem a).used := by
  unfold Heap.setUsed
  by_cases h : a = p <;> simp [h]

@[simp]
theorem setUsed_mem_next (s : Heap) (p : Nat) (v : Bool) (a : Nat) :
    ((s.setUsed p v).mem a).next = (s.mem a).next := by
  unfold Heap.setUsed
  by_cases h : a = p <;> simp [h]

@[simp]
theorem setNext_heapStart (s : Heap) (p v : Nat) : (s.setNext p v).heapStart = s.heapStart := rfl

@[simp]
theorem setNext_top (s : Heap) (p v : Nat) : (s.setNext p v).top = s.top := rfl

@[simp]
theorem setNext_searchStart (s : Heap) (p v : Nat) : (s.setNext p v).searchStart = s.searchStart := rfl

@[simp]
theorem setNext_searchMode (s : Heap) (p v : Nat) : (s.setNext p v).searchMode = s.searchMode := rfl

@[simp]
theorem setNext_free_list (s : Heap) (p v : Nat) : (s.setNext p v).free_list = s.free_list := rfl

@[simp]
theorem setNext_segregatedLists (s : Heap) (p v : Nat) : (s.setNext p v).segregatedLists = s.segregatedLists := rfl

@[simp]
theorem setNext_arena (s : Heap) (p v : Nat) : (s.setNext p v).arena = s.arena := rfl

@[simp]
theorem setNext_brk (s : Heap) (p v : Nat) : (s.setNext p v)._brk = s._brk := rfl

@[simp]
theorem setNext_mmapCalls (s : Heap) (p v : Nat) : (s.setNext p v).mmapCalls = s.mmapCalls := rfl

@[simp]
theorem setNext_mapped (s : Heap) (p v : Nat) : (s.setNext p v).mapped = s.mapped := rfl

@[simp]
theorem setNext_mem_size (s : Heap) (p v : Nat) (a : Nat) :
    ((s.setNext p v).mem a).size = (s.mem a).size := by
  unfold Heap.setNext
  by_cases h : a = p <;> simp [h]

@[simp]
theorem setNext_mem_used (s : Heap) (p v : Nat) (a : Nat) :
    ((s.setNext p v).mem a).used = (s.mem a).used := by
  unfold Heap.setNext
  by_cases h : a = p <;> simp [h]

@[simp]
theorem setNext_mem_next (s : Heap) (p v : Nat) (a : Nat) :
    ((s.setNext p v).mem a).next = if a = p then v else (s.mem a).next := by
  unfold Heap.setNext
  by_cases h : a = p <;> simp [h]


/-! ## The arena backend -/

theorem mod_W_of_le {x : Nat} (h : x ≤ 2 ^ 63) : x % W = x :=
  Nat.mod_eq_of_lt (by unfold W; omega)

theorem allocSize_fits {size : Nat} (hsz : size + headerSize ≤ arenaSize) :
    allocSize size = size + headerSize := by
  unfold allocSize headerSize sizeofBlock sizeofData
  unfold headerSize sizeofBlock sizeofData arenaSize at hsz
  exact Nat.mod_eq_of_lt (by unfold W; omega)

theorem sbrk_mmapCalls (os : OS) (s : Heap) (inc : Nat) :
    (_sbrk os s inc).2.mmapCalls = s.mmapCalls + 1 := by
  unfold _sbrk
  dsimp only
  split_ifs <;> dsimp only

theorem sbrk_frame (os : OS) (s : Heap) (inc : Nat) :
    (_sbrk os s inc).2.mem = s.mem ∧ (_sbrk os s inc).2.heapStart = s.heapStart ∧
    (_sbrk os s inc).2.top = s.top ∧ (_sbrk os s inc).2.searchStart = s.searchStart ∧
    (_sbrk os s inc).2.searchMode = s.searchMode ∧ (_sbrk os s inc).2.free_list = s.free_list ∧
    (_sbrk os s inc).2.segregatedLists = s.segregatedLists := by
  unfold _sbrk
  dsimp only
  split_ifs <;> dsimp only <;> simp only [and_self]

theorem sbrk_zero_fst (os : OS) (s : Heap) : (_sbrk os s 0).1 = os.mmapAddr s.mmapCalls % W := by
  unfold _sbrk
  dsimp only
  rw [if_pos rfl]

theorem sbrk_fst_granted (os : OS) (s : Heap) (inc : Nat) (h0 : inc ≠ 0)
    (h1 : ¬ ((inc + os.mmapAddr s.mmapCalls % W) % W > (arenaSize + os.mmapAddr s.mmapCalls % W) % W)) :
    (_sbrk os s inc).1 = os.indeterminate s.mmapCalls % W := by
  unfold _sbrk
  dsimp only
  rw [if_neg h0, if_neg h1]

theorem sbrk_fst_refused (os : OS) (s : Heap) (inc : Nat) (h0 : inc ≠ 0)
    (h1 : (inc + os.mmapAddr s.mmapCalls % W) % W > (arenaSize + os.mmapAddr s.mmapCalls % W) % W) :
    (_sbrk os s inc).1 = W - 1 := by
  unfold _sbrk
  dsimp only
  rw [if_neg h0, if_pos h1]

theorem requestFromOS_snd (os : OS) (s : Heap) (size : Nat) :
    (requestFromOS os s size).2 = (_sbrk os (_sbrk os s 0).2 (allocSize size)).2 := by
  unfold requestFromOS
  dsimp only
  split_ifs <;> dsimp only

theorem requestFromOS_fst (os : OS) (s : Heap) (size : Nat) :
    (requestFromOS os s size).1 =
      if (_sbrk os (_sbrk os s 0).2 (allocSize size)).1 = W - 1 then 0 else (_sbrk os s 0).1 := by
  unfold requestFromOS
  dsimp only
  split_ifs <;> dsimp only

@[simp]
theorem requestFromOS_mmapCalls (os : OS) (s : Heap) (size : Nat) :
    (requestFromOS os s size).2.mmapCalls = s.mmapCalls + 2 := by
  rw [requestFromOS_snd, sbrk_mmapCalls, sbrk_mmapCalls]

@[simp]
theorem requestFromOS_mem (os : OS) (s : Heap) (size : Nat) :
    (requestFromOS os s size).2.mem = s.mem := by
  rw [requestFromOS_snd, (sbrk_frame _ _ _).1, (sbrk_frame _ _ _).1]

@[simp]
theorem requestFromOS_heapStart (os : OS) (s : Heap) (size : Nat) :
    (requestFromOS os s size).2.heapStart = s.heapStart := by
  rw [requestFromOS_snd, (sbrk_frame _ _ _).2.1, (sbrk_frame _ _ _).2.1]

@[simp]
theorem requestFromOS_top (os : OS) (s : Heap) (size : Nat) :
    (requestFromOS os s size).2.top = s.top := by
  rw [requestFromOS_snd, (sbrk_frame _ _ _).2.2.1, (sbrk_frame _ _ _).2.2.1]

@[simp]
theorem requestFromOS_searchStart (os : OS) (s : Heap) (size : Nat) :
    (requestFromOS os s size).2.searchStart = s.searchStart := by
  rw [requestFromOS_snd, (sbrk_frame _ _ _).2.2.2.1, (sbrk_frame _ _ _).2.2.2.1]

@[simp]
theorem requestFromOS_searchMode (os : OS) (s : Heap) (size : Nat) :
    (requestFromOS os s size).2.searchMode = s.searchMode := by
  rw [requestFromOS_snd, (sbrk_frame _ _ _).2.2.2.2.1, (sbrk_frame _ _ _).2.2.2.2.1]

@[simp]
theorem requestFromOS_free_list (os : OS) (s : Heap) (size : Nat) :
    (requestFromOS os s size).2.free_list = s.free_list := by
  rw [requestFromOS_snd, (sbrk_frame _ _ _).2.2.2.2.2.1, (sbrk_frame _ _ _).2.2.2.2.2.1]

@[simp]
theorem requestFromOS_segregatedLists (os : OS) (s : Heap) (size : Nat) :
    (requestFromOS os s size).2.segregatedLists = s.segregatedLists := by
  rw [requestFromOS_snd, (sbrk_frame _ _ _).2.2.2.2.2.2, (sbrk_frame _ _ _).2.2.2.2.2.2]

theorem sbrk_mapped (os : OS) (s : Heap) (inc : Nat) :
    (_sbrk os s inc).2.mapped = (os.mmapAddr s.mmapCalls % W) :: s.mapped := by
  unfold _sbrk
  dsimp only
  split_ifs <;> dsimp only

theorem requestFromOS_mapped (os : OS) (s : Heap) (size : Nat) :
    (requestFromOS os s size).2.mapped
      = (os.mmapAddr (s.mmapCalls + 1) % W) :: (os.mmapAddr s.mmapCalls % W) :: s.mapped := by
  rw [requestFromOS_snd, sbrk_mapped, sbrk_mapped, sbrk_mmapCalls]

/-- A request that fits the arena is granted, and the block it returns is the base
of the mapping made by the first of its two `_sbrk` calls. -/
theorem requestFromOS_fits (os : OS) (s : Heap) (size : Nat)
    (h0 : os.mmapAddr s.mmapCalls + arenaSize ≤ 2 ^ 63)
    (h1 : os.mmapAddr (s.mmapCalls + 1) + arenaSize ≤ 2 ^ 63)
    (hi : os.indeterminate (s.mmapCalls + 1) % W ≠ W - 1)
    (hsz : size + headerSize ≤ arenaSize) :
    (requestFromOS os s size).1 = os.mmapAddr s.mmapCalls := by
  have e0 : os.mmapAddr s.mmapCalls % W = os.mmapAddr s.mmapCalls := mod_W_of_le (by omega)
  have e1 : os.mmapAddr (s.mmapCalls + 1) % W = os.mmapAddr (s.mmapCalls + 1) :=
    mod_W_of_le (by omega)
  have e2 : (arenaSize + os.mmapAddr (s.mmapCalls + 1)) % W
      = os.mmapAddr (s.mmapCalls + 1) + arenaSize := by
    rw [Nat.add_comm]; exact mod_W_of_le h1
  have e3 : allocSize size = size + headerSize := allocSize_fits hsz
  have e6 : size + headerSize ≠ 0 := by unfold headerSize sizeofBlock sizeofData; omega
  have e4 : (size + headerSize + os.mmapAddr (s.mmapCalls + 1)) % W
      = size + headerSize + os.mmapAddr (s.mmapCalls + 1) := mod_W_of_le (by omega)
  have e7 : ¬ (size + headerSize + os.mmapAddr (s.mmapCalls + 1)
      > os.mmapAddr (s.mmapCalls + 1) + arenaSize) := by omega
  have hc : (_sbrk os s 0).2.mmapCalls = s.mmapCalls + 1 := sbrk_mmapCalls os s 0
  have r2 : (_sbrk os (_sbrk os s 0).2 (allocSize size)).1
      = os.indeterminate (s.mmapCalls + 1) % W := by
    rw [e3, sbrk_fst_granted _ _ _ e6 (by rw [hc, e1, e2, e4]; exact e7), hc]
  rw [requestFromOS_fst, r2, if_neg hi, sbrk_zero_fst, e0]

/-- A request whose size does not fit the arena is refused. -/
theorem requestFromOS_refused (os : OS) (s : Heap) (size : Nat)
    (h1 : os.mmapAddr (s.mmapCalls + 1) + arenaSize ≤ 2 ^ 63)
    (hsz : arenaSize < size + headerSize) (hlt : size + headerSize ≤ 2 ^ 63) :
    (requestFromOS os s size).1 = 0 := by
  have e1 : os.mmapAddr (s.mmapCalls + 1) % W = os.mmapAddr (s.mmapCalls + 1) :=
    mod_W_of_le (by omega)
  have e2 : (arenaSize + os.mmapAddr (s.mmapCalls + 1)) % W
      = os.mmapAddr (s.mmapCalls + 1) + arenaSize := by
    rw [Nat.add_comm]; exact mod_W_of_le h1
  have e3 : allocSize size = size + headerSize := by
    unfold allocSize headerSize sizeofBlock sizeofData
    unfold headerSize sizeofBlock sizeofData at hlt
    exact Nat.mod_eq_of_lt (by unfold W; omega)
  have e6 : size + headerSize ≠ 0 := by unfold headerSize sizeofBlock sizeofData; omega
  have hpos : 0 < arenaSize := by unfold arenaSize; omega
  have e4 : (size + headerSize + os.mmapAddr (s.mmapCalls + 1)) % W
      = size + headerSize + os.mmapAddr (s.mmapCalls + 1) :=
    Nat.mod_eq_of_lt (by unfold W; omega)
  have e7 : size + headerSize + os.mmapAddr (s.mmapCalls + 1)
      > os.mmapAddr (s.mmapCalls + 1) + arenaSize := by omega
  have hc : (_sbrk os s 0).2.mmapCalls = s.mmapCalls + 1 := sbrk_mmapCalls os s 0
  have r2 : (_sbrk os (_sbrk os s 0).2 (allocSize size)).1 = W - 1 := by
    rw [e3, sbrk_fst_refused _ _ _ e6 (by rw [hc, e1, e2, e4]; exact e7)]
  rw [requestFromOS_fst, r2, if_pos rfl]


/-! ## The header writes of `alloc` and `free` -/

theorem linkBlock_frame (s : Heap) (b sz : Nat) :
    (linkBlock s b sz).searchMode = s.searchMode ∧ (linkBlock s b sz).free_list = s.free_list ∧
    (linkBlock s b sz).mmapCalls = s.mmapCalls ∧ (linkBlock s b sz)._brk = s._brk ∧
    (linkBlock s b sz).arena = s.arena ∧ (linkBlock s b sz).searchStart = s.searchStart ∧
    (linkBlock s b sz).segregatedLists = s.segregatedLists := by
  unfold linkBlock
  dsimp only
  split_ifs <;> simp

theorem linkBlock_mapped (s : Heap) (b sz : Nat) : (linkBlock s b sz).mapped = s.mapped := by
  unfold linkBlock
  dsimp only
  split_ifs <;> simp

@[simp]
theorem linkBlock_top (s : Heap) (b sz : Nat) : (linkBlock s b sz).top = b := by
  unfold linkBlock
  dsimp only

@[simp]
theorem linkBlock_heapStart (s : Heap) (b sz : Nat) :
    (linkBlock s b sz).heapStart = if s.heapStart = 0 then b else s.heapStart := by
  unfold linkBlock
  dsimp only
  split_ifs <;> simp_all

@[simp]
theorem linkBlock_mem_size (s : Heap) (b sz a : Nat) :
    ((linkBlock s b sz).mem a).size = if a = b then sz else (s.mem a).size := by
  unfold linkBlock
  dsimp only
  split_ifs <;> simp_all

@[simp]
theorem linkBlock_mem_used (s : Heap) (b sz a : Nat) :
    ((linkBlock s b sz).mem a).used = if a = b then true else (s.mem a).used := by
  unfold linkBlock
  dsimp only
  split_ifs <;> simp_all

@[simp]
theorem linkBlock_mem_next (s : Heap) (b sz a : Nat) :
    ((linkBlock s b sz).mem a).next =
      if s.top ≠ 0 ∧ a = s.top then b else (s.mem a).next := by
  unfold linkBlock
  dsimp only
  split_ifs <;> simp_all

theorem coalesce_frame (s : Heap) (b : Nat) :
    (coalesce s b).searchMode = s.searchMode ∧ (coalesce s b).free_list = s.free_list ∧
    (coalesce s b).mmapCalls = s.mmapCalls ∧ (coalesce s b)._brk = s._brk ∧
    (coalesce s b).arena = s.arena ∧ (coalesce s b).searchStart = s.searchStart ∧
    (coalesce s b).segregatedLists = s.segregatedLists ∧
    (coalesce s b).heapStart = s.heapStart ∧ (coalesce s b).top = s.top := by
  unfold coalesce
  simp

theorem coalesce_mem_size (s : Heap) (b a : Nat) :
    ((coalesce s b).mem a).size =
      if a = b then ((s.mem b).size + (s.mem (s.mem b).next).size) % W else (s.mem a).size := by
  unfold coalesce
  simp

theorem coalesce_mem_used (s : Heap) (b a : Nat) :
    ((coalesce s b).mem a).used = (s.mem a).used := by
  unfold coalesce
  simp

theorem coalesce_mem_next (s : Heap) (b a : Nat) :
    ((coalesce s b).mem a).next =
      if a = b then (s.mem (s.mem b).next).next else (s.mem a).next := by
  unfold coalesce
  simp

theorem freeBlock_frame (s : Heap) (b : Nat) :
    (freeBlock s b).searchMode = s.searchMode ∧
    (freeBlock s b).mmapCalls = s.mmapCalls ∧ (freeBlock s b)._brk = s._brk ∧
    (freeBlock s b).arena = s.arena ∧ (freeBlock s b).searchStart = s.searchStart ∧
    (freeBlock s b).segregatedLists = s.segregatedLists ∧
    (freeBlock s b).heapStart = s.heapStart ∧ (freeBlock s b).top = s.top := by
  unfold freeBlock
  dsimp only
  split_ifs <;> simp [coalesce_frame]

theorem freeBlock_mapped (s : Heap) (b : Nat) : (freeBlock s b).mapped = s.mapped := by
  unfold freeBlock coalesce
  dsimp only
  split_ifs <;> simp

@[simp]
theorem freeBlock_free_list (s : Heap) (b : Nat) :
    (freeBlock s b).free_list = s.free_list ++ [b] := by
  unfold freeBlock
  dsimp only
  split_ifs <;> simp [coalesce_frame]

theorem freeBlock_mem_size (s : Heap) (b a : Nat) :
    ((freeBlock s b).mem a).size =
      if a = b ∧ canCoalesce s b = true then
        ((s.mem b).size + (s.mem (s.mem b).next).size) % W
      else (s.mem a).size := by
  unfold freeBlock
  dsimp only
  split_ifs <;> simp_all [coalesce_mem_size]

@[simp]
theorem freeBlock_mem_used (s : Heap) (b a : Nat) :
    ((freeBlock s b).mem a).used = if a = b then false else (s.mem a).used := by
  unfold freeBlock
  dsimp only
  split_ifs <;> simp_all [coalesce_mem_used]

theorem freeBlock_mem_next (s : Heap) (b a : Nat) :
    ((freeBlock s b).mem a).next =
      if a = b ∧ canCoalesce s b = true then (s.mem (s.mem b).next).next
      else (s.mem a).next := by
  unfold freeBlock
  dsimp only
  split_ifs <;> simp_all [coalesce_mem_next]

theorem getHeader_dataOf {b : Nat} (h : b ≤ 2 ^ 63) : getHeader (dataOf b) = b := by
  unfold getHeader dataOf headerSize sizeofBlock sizeofData W
  omega

theorem free_dataOf (s : Heap) {b : Nat} (h : b ≤ 2 ^ 63) (h0 : b ≠ 0) :
    free s (dataOf b) = .ok (freeBlock s b) := by
  unfold free
  dsimp only
  rw [getHeader_dataOf h, if_neg h0]


/-! ## Splitting and the free-list search -/

theorem split_frame {s S : Heap} {b sz : Nat} (h : split s b sz = .ok S) :
    S.searchMode = s.searchMode ∧ S.free_list = s.free_list ∧
    S.mmapCalls = s.mmapCalls ∧ S._brk = s._brk ∧ S.arena = s.arena ∧
    S.searchStart = s.searchStart ∧ S.segregatedLists = s.segregatedLists ∧
    S.heapStart = s.heapStart ∧ S.top = s.top := by
  unfold split at h
  dsimp only at h
  split_ifs at h
  injection h with h
  subst h
  simp

theorem split_ok (s : Heap) (b sz : Nat)
    (hp : (b + sizeofBlock * ((sz + sizeofPtr - sizeofWord) % W)) % W ≠ 0)
    (hm : s.headerMapped ((b + sizeofBlock * ((sz + sizeofPtr - sizeofWord) % W)) % W) = true) :
    ∃ S, split s b sz = .ok S := by
  unfold split
  dsimp only
  rw [if_neg hp, if_neg (by rw [hm]; exact Bool.noConfusion)]
  exact ⟨_, rfl⟩

/-- A split whose rest header would lie outside every mapped region does not return:
after `p = alloc(4000000); free(p)`, the request `alloc(2000000)` hits the free block,
`canSplit` holds, and the store `32 * 2000000` bytes above the block faults. -/
theorem split_outside_the_mappings_faults :
    canSplit (heapOf (run 2 linuxOS [.alloc 4000000, .free 0] (Heap.empty .FreeList, [])))
      139637972533248 (align 2000000) = true ∧
    alloc 2 linuxOS (heapOf (run 2 linuxOS [.alloc 4000000, .free 0]
      (Heap.empty .FreeList, []))) 2000000 = .error .unmapped :=
  ⟨by decide, rfl⟩

theorem listAllocate_spec {s S : Heap} {b sz r : Nat} (h : listAllocate s b sz = .ok (r, S)) :
    r = b ∧ (S.mem b).size = sz ∧ (S.mem b).used = true ∧
    S.searchMode = s.searchMode ∧ S.free_list = s.free_list ∧
    S.mmapCalls = s.mmapCalls ∧ S._brk = s._brk ∧ S.arena = s.arena ∧
    S.searchStart = s.searchStart ∧ S.segregatedLists = s.segregatedLists ∧
    S.heapStart = s.heapStart ∧ S.top = s.top := by
  unfold listAllocate at h
  by_cases hc : canSplit s b sz = true
  · rw [if_pos hc] at h
    cases hs : split s b sz with
    | error e => rw [hs] at h; cases h
    | ok S1 =>
      rw [hs] at h
      dsimp only at h
      injection h with h
      injection h with h1 h2
      subst h2
      have hf := split_frame hs
      simp [hf, h1.symm]
  · rw [if_neg hc] at h
    dsimp only at h
    injection h with h
    injection h with h1 h2
    subst h2
    simp [h1.symm]

theorem listAllocate_ok (s : Heap) (b sz : Nat)
    (hp : canSplit s b sz = true →
      (b + sizeofBlock * ((sz + sizeofPtr - sizeofWord) % W)) % W ≠ 0 ∧
      s.headerMapped ((b + sizeofBlock * ((sz + sizeofPtr - sizeofWord) % W)) % W) = true) :
    ∃ S, listAllocate s b sz = .ok (b, S) := by
  unfold listAllocate
  by_cases hc : canSplit s b sz = true
  · obtain ⟨S1, hS1⟩ := split_ok s b sz (hp hc).1 (hp hc).2
    rw [if_pos hc, hS1]
    exact ⟨_, rfl⟩
  · rw [if_neg hc]
    exact ⟨_, rfl⟩

/-- What a hit of the free-list scan returns: an entry of the scanned list that was
large enough, now used and of exactly the requested size, with every entry equal to
it erased from `free_list`. -/
theorem freeListScan_spec (s : Heap) (sz : Nat) (l : List Nat) {b : Nat} {S : Heap}
    (h : freeListScan s sz l = .ok (b, S)) (hb : b ≠ 0) :
    b ∈ l ∧ sz ≤ (s.mem b).size ∧ (S.mem b).size = sz ∧ (S.mem b).used = true ∧
    S.free_list = s.free_list.filter (fun x => x != b) ∧
    S.searchMode = s.searchMode ∧ S.mmapCalls = s.mmapCalls ∧ S._brk = s._brk ∧
    S.arena = s.arena ∧ S.heapStart = s.heapStart ∧ S.top = s.top := by
  induction l with
  | nil =>
    unfold freeListScan at h
    injection h with h
    injection h with h1 h2
    exact absurd h1.symm hb
  | cons x rest ih =>
    unfold freeListScan at h
    by_cases hx : x = 0
    · rw [if_pos hx] at h; cases h
    · rw [if_neg hx] at h
      by_cases hsz : (s.mem x).size < sz
      · rw [if_pos hsz] at h
        have := ih h
        exact ⟨List.mem_cons_of_mem _ this.1, this.2⟩
      · rw [if_neg hsz] at h
        have hl := listAllocate_spec h
        obtain ⟨h1, h2, h3, h4, h5, h6, h7, h8, _, _, h11, h12⟩ := hl
        subst h1
        exact ⟨List.mem_cons_self _ _, Nat.le_of_not_lt hsz, h2, h3, h5, h4, h6, h7, h8, h11, h12⟩

theorem freeListScan_miss (s : Heap) (sz : Nat) (l : List Nat)
    (h : ∀ x ∈ l, x ≠ 0 ∧ (s.mem x).size < sz) : freeListScan s sz l = .ok (0, s) := by
  induction l with
  | nil => rfl
  | cons x rest ih =>
    unfold freeListScan
    rw [if_neg (h x (List.mem_cons_self _ _)).1, if_pos (h x (List.mem_cons_self _ _)).2]
    exact ih (fun y hy => h y (List.mem_cons_of_mem _ hy))

/-! ## `alloc` on a hit and on a miss -/

theorem alloc_hit {fuel : Nat} (os : OS) {s s1 : Heap} {n b : Nat}
    (h : findBlock fuel s (align n) = .ok (b, s1)) (hb : b ≠ 0) :
    alloc fuel os s n = .ok (dataOf b, s1) := by
  unfold alloc
  dsimp only
  rw [h]
  dsimp only
  rw [if_pos hb]

theorem alloc_miss {fuel : Nat} {os : OS} {s s1 : Heap} {n : Nat}
    (h : findBlock fuel s (align n) = .ok (0, s1)) :
    alloc fuel os s n = allocFromOS os s1 (align n) := by
  unfold alloc
  dsimp only
  rw [h]
  dsimp only
  rw [if_neg (by simp)]

theorem allocFromOS_refused {os : OS} {s : Heap} {sz : Nat}
    (h : (requestFromOS os s sz).1 = 0) : allocFromOS os s sz = .error .nullDeref := by
  unfold allocFromOS
  dsimp only
  rw [if_pos h]

theorem allocFromOS_granted {os : OS} {s : Heap} {sz : Nat}
    (h0 : os.mmapAddr s.mmapCalls + arenaSize ≤ 2 ^ 63)
    (h1 : os.mmapAddr (s.mmapCalls + 1) + arenaSize ≤ 2 ^ 63)
    (hi : os.indeterminate (s.mmapCalls + 1) % W ≠ W - 1)
    (hn : os.mmapAddr s.mmapCalls ≠ 0)
    (hsz : sz + headerSize ≤ arenaSize) :
    allocFromOS os s sz = .ok (dataOf (os.mmapAddr s.mmapCalls),
      linkBlock (requestFromOS os s sz).2 (os.mmapAddr s.mmapCalls) sz) := by
  unfold allocFromOS
  dsimp only
  rw [requestFromOS_fits os s sz h0 h1 hi hsz, if_neg hn]


/-! ## One call at a time, on a well-behaved system -/

theorem wellBehaved_at {os : OS} {n k : Nat} (h : os.wellBehaved n) (hk : k < n) :
    os.mmapAddr k ≠ 0 ∧ os.mmapAddr k + arenaSize ≤ 2 ^ 63 ∧
    os.indeterminate k % W ≠ W - 1 :=
  ⟨(h.1 k hk).1, (h.1 k hk).2.2.1, (h.1 k hk).2.2.2⟩

theorem wellBehaved_ne {os : OS} {n i j : Nat} (h : os.wellBehaved n) (hij : i < j)
    (hj : j < n) : os.mmapAddr i ≠ os.mmapAddr j := by
  have hpos : 0 < arenaSize := by unfold arenaSize; omega
  have := h.2 j hj i hij
  omega

/-- An `alloc` whose search misses, on a system that grants the request: the new block
is the base of the next mapping, and the header writes are those of `linkBlock`. -/
theorem alloc_extend_spec {fuel : Nat} (os : OS) {s : Heap} {n : Nat}
    (hmiss : findBlock fuel s (align n) = .ok (0, s))
    (hn : os.mmapAddr s.mmapCalls ≠ 0)
    (h0 : os.mmapAddr s.mmapCalls + arenaSize ≤ 2 ^ 63)
    (h1 : os.mmapAddr (s.mmapCalls + 1) + arenaSize ≤ 2 ^ 63)
    (hi : os.indeterminate (s.mmapCalls + 1) % W ≠ W - 1)
    (hsz : align n + headerSize ≤ arenaSize) :
    ∃ S, alloc fuel os s n = .ok (dataOf (os.mmapAddr s.mmapCalls), S) ∧
      S.heapStart = (if s.heapStart = 0 then os.mmapAddr s.mmapCalls else s.heapStart) ∧
      S.top = os.mmapAddr s.mmapCalls ∧ S.mmapCalls = s.mmapCalls + 2 ∧
      S.free_list = s.free_list ∧ S.searchMode = s.searchMode ∧
      (∀ a, (S.mem a).size = if a = os.mmapAddr s.mmapCalls then align n else (s.mem a).size) ∧
      (∀ a, (S.mem a).used = if a = os.mmapAddr s.mmapCalls then true else (s.mem a).used) ∧
      (∀ a, (S.mem a).next =
        if s.top ≠ 0 ∧ a = s.top then os.mmapAddr s.mmapCalls else (s.mem a).next) ∧
      S.mapped = (os.mmapAddr (s.mmapCalls + 1) % W) :: (os.mmapAddr s.mmapCalls % W) ::
        s.mapped := by
  refine ⟨_, (alloc_miss hmiss).trans (allocFromOS_granted h0 h1 hi hn hsz), ?_, ?_, ?_, ?_, ?_,
    ?_, ?_, ?_, ?_⟩
  · simp
  · simp
  · simp [linkBlock_frame]
  · simp [linkBlock_frame]
  · simp [linkBlock_frame]
  · intro a; simp
  · intro a; simp
  · intro a; simp
  · rw [linkBlock_mapped, requestFromOS_mapped]

/-- The call `free(b->data)` when `b` has no free successor to merge. -/
theorem free_plain_spec {s : Heap} {b : Nat} (hb : b ≠ 0) (hlt : b ≤ 2 ^ 63)
    (hc : canCoalesce s b = false) :
    ∃ S, free s (dataOf b) = .ok S ∧ S.free_list = s.free_list ++ [b] ∧
      S.heapStart = s.heapStart ∧ S.top = s.top ∧ S.mmapCalls = s.mmapCalls ∧
      S.searchMode = s.searchMode ∧
      (∀ a, (S.mem a).size = (s.mem a).size) ∧
      (∀ a, (S.mem a).used = if a = b then false else (s.mem a).used) ∧
      (∀ a, (S.mem a).next = (s.mem a).next) ∧ S.mapped = s.mapped := by
  have hf := freeBlock_frame s b
  refine ⟨_, free_dataOf s hlt hb, by simp, hf.2.2.2.2.2.2.1, hf.2.2.2.2.2.2.2, hf.2.1, hf.1,
    ?_, ?_, ?_, freeBlock_mapped s b⟩
  · intro a; rw [freeBlock_mem_size]; simp [hc]
  · intro a; simp
  · intro a; rw [freeBlock_mem_next]; simp [hc]

/-- The call `free(b->data)` when `b`'s successor is free: one merge. -/
theorem free_merge_spec {s : Heap} {b : Nat} (hb : b ≠ 0) (hlt : b ≤ 2 ^ 63)
    (hc : canCoalesce s b = true) :
    ∃ S, free s (dataOf b) = .ok S ∧ S.free_list = s.free_list ++ [b] ∧
      S.heapStart = s.heapStart ∧ S.top = s.top ∧ S.mmapCalls = s.mmapCalls ∧
      S.searchMode = s.searchMode ∧
      (∀ a, (S.mem a).size =
        if a = b then ((s.mem b).size + (s.mem (s.mem b).next).size) % W else (s.mem a).size) ∧
      (∀ a, (S.mem a).used = if a = b then false else (s.mem a).used) ∧
      (∀ a, (S.mem a).next = if a = b then (s.mem (s.mem b).next).next else (s.mem a).next) ∧
      S.mapped = s.mapped := by
  have hf := freeBlock_frame s b
  refine ⟨_, free_dataOf s hlt hb, by simp, hf.2.2.2.2.2.2.1, hf.2.2.2.2.2.2.2, hf.2.1, hf.1,
    ?_, ?_, ?_, freeBlock_mapped s b⟩
  · intro a; rw [freeBlock_mem_size]; simp [hc]
  · intro a; simp
  · intro a; rw [freeBlock_mem_next]; simp [hc]

theorem findBlock_firstFit {fuel : Nat} {s : Heap} {sz : Nat} (h : s.searchMode = .FirstFit) :
    findBlock fuel s sz = (firstFit fuel s sz).map (fun b => (b, s)) := by
  unfold findBlock
  rw [h]

theorem findBlock_bestFit {fuel : Nat} {s : Heap} {sz : Nat} (h : s.searchMode = .BestFit) :
    findBlock fuel s sz = (bestFit fuel s sz).map (fun b => (b, s)) := by
  unfold findBlock
  rw [h]

theorem findBlock_freeList {fuel : Nat} {s : Heap} {sz : Nat} (h : s.searchMode = .FreeList) :
    findBlock fuel s sz = freeListScan s sz s.free_list := by
  unfold findBlock
  rw [h]
  rfl

theorem firstFitLoop_null (s : Heap) (sz fuel : Nat) :
    firstFitLoop s sz (fuel + 1) 0 = .ok 0 := by
  unfold firstFitLoop
  rw [if_pos rfl]

theorem firstFitLoop_skip {s : Heap} {sz fuel b : Nat} (hb : b ≠ 0)
    (h : ((s.mem b).used || decide ((s.mem b).size < sz)) = true) :
    firstFitLoop s sz (fuel + 1) b = firstFitLoop s sz fuel (s.mem b).next := by
  rw [firstFitLoop, if_neg hb, if_pos h]

theorem firstFitLoop_take {s : Heap} {sz fuel b : Nat} (hb : b ≠ 0)
    (hu : (s.mem b).used = false) (hs : sz ≤ (s.mem b).size) :
    firstFitLoop s sz (fuel + 1) b = .ok b := by
  rw [firstFitLoop, if_neg hb, if_neg (by simp [hu]; omega)]

theorem bestFitLoop_null (s : Heap) (sz fuel fit : Nat) :
    bestFitLoop s sz (fuel + 1) 0 fit = .ok fit := by
  unfold bestFitLoop
  rw [if_pos rfl]

theorem bestFitLoop_first {s : Heap} {sz fuel b : Nat} (hb : b ≠ 0)
    (hu : (s.mem b).used = false) (hs : sz ≤ (s.mem b).size) :
    bestFitLoop s sz (fuel + 1) b 0 = bestFitLoop s sz fuel (s.mem b).next b := by
  rw [bestFitLoop, if_neg hb]
  have : ((s.mem b).used || decide ((s.mem b).size < sz)) = false := by simp [hu]; omega
  simp only [this, if_true, Bool.false_eq_true, if_false]
  rw [if_neg hb]


@[simp]
theorem empty_heapStart (m : SearchMode) : (Heap.empty m).heapStart = 0 := rfl
@[simp]
theorem empty_top (m : SearchMode) : (Heap.empty m).top = 0 := rfl
@[simp]
theorem empty_searchStart (m : SearchMode) : (Heap.empty m).searchStart = 0 := rfl
@[simp]
theorem empty_searchMode (m : SearchMode) : (Heap.empty m).searchMode = m := rfl
@[simp]
theorem empty_free_list (m : SearchMode) : (Heap.empty m).free_list = [] := rfl
@[simp]
theorem empty_mmapCalls (m : SearchMode) : (Heap.empty m).mmapCalls = 0 := rfl

@[simp]
theorem empty_mapped (m : SearchMode) : (Heap.empty m).mapped = [] := rfl
@[simp]
theorem empty_mem_size (m : SearchMode) (a : Nat) : ((Heap.empty m).mem a).size = 0 := rfl
@[simp]
theorem empty_mem_used (m : SearchMode) (a : Nat) :
    ((Heap.empty m).mem a).used = false := rfl
@[simp]
theorem empty_mem_next (m : SearchMode) (a : Nat) : ((Heap.empty m).mem a).next = 0 := rfl


theorem getHeader_dataOf_lt {b : Nat} (h : b < W) : getHeader (dataOf b) = b := by
  unfold getHeader dataOf headerSize sizeofBlock sizeofData
  unfold W at h ⊢
  omega

/-! ## C1 -/

/-- Claim C1 (the code departs from it).  In `FirstFit` and in `BestFit` mode, after
`p = alloc(8); free(p)`, the call `alloc(8)` is a search hit: it returns `p` again and
maps nothing new.  On return the block that owns the pointer still has
`used == false`: outside `FreeList` mode `findBlock` hands the block back without
passing it to `listAllocate`. -/
theorem c1_hit_outside_freeList_leaves_block_free :
    (run 2 linuxOS [.alloc 8, .free 0, .alloc 8] (Heap.empty .FirstFit, [])).toOption.map
        (fun r => (r.2, r.1.mmapCalls, (r.1.mem (getHeader (r.2.getD 1 0))).used))
      = some ([139637972533272, 139637972533272], 2, false) ∧
    (run 2 linuxOS [.alloc 8, .free 0, .alloc 8] (Heap.empty .BestFit, [])).toOption.map
        (fun r => (r.2, r.1.mmapCalls, (r.1.mem (getHeader (r.2.getD 1 0))).used))
      = some ([139637972533272, 139637972533272], 2, false) ∧
    (run 2 linuxOS [.alloc 8, .free 0, .alloc 8] (Heap.empty .FreeList, [])).toOption.map
        (fun r => (r.2, r.1.mmapCalls, (r.1.mem (getHeader (r.2.getD 1 0))).used))
      = some ([139637972533272, 139637972533272], 2, true) := by
  decide

/-! ## C3 -/

/-- Claim C3.  In `FreeList` mode, whenever the free-list search of `alloc(n)` hits a
block `b`, `alloc(n)` returns `b`'s payload pointer without touching the arena, `b`
was an entry of `free_list`, and the header found through `getHeader` from the
returned pointer records exactly `align(n)`, whatever size `b` had before. -/
theorem c3_freeList_hit_records_aligned_size (fuel : Nat) (os : OS) (s : Heap) (n b : Nat)
    (hmode : s.searchMode = .FreeList) (hty : ∀ x ∈ s.free_list, x < W)
    (hit : ∃ s1, freeList s (align n) = .ok (b, s1)) (hb : b ≠ 0) :
    ∃ s1, alloc fuel os s n = .ok (dataOf b, s1) ∧ b ∈ s.free_list ∧
      (s1.mem (getHeader (dataOf b))).size = align n ∧
      s1.mmapCalls = s.mmapCalls ∧ s1._brk = s._brk := by
  obtain ⟨s1, h1⟩ := hit
  have hfind : findBlock fuel s (align n) = .ok (b, s1) := by
    unfold findBlock
    rw [hmode]
    exact h1
  have hspec := freeListScan_spec s (align n) s.free_list h1 hb
  refine ⟨s1, alloc_hit os hfind hb, hspec.1, ?_, hspec.2.2.2.2.2.2.1, hspec.2.2.2.2.2.2.2.1⟩
  rw [getHeader_dataOf_lt (hty b hspec.1)]
  exact hspec.2.2.1

/-- The split test of `main` (after the merge test and `free(p3)`, `alloc(4)` is served
from the free list without a split and its header records `align(4) = 8`), and a hit
that splits: after `p = alloc(64); free(p)`, `alloc(8)` is served from the block of
size 64, `canSplit` holds, and the header records `align(8) = 8`. -/
theorem c3_freeList_hit_records_aligned_size_witness :
    align 4 = 8 ∧
    (∃ s1, alloc 2 linuxOS
        (heapOf (run 2 linuxOS [.alloc 12, .alloc 12, .free 1, .free 0, .alloc 24, .free 2]
          (Heap.empty .FreeList, []))) 4 = .ok (dataOf 139637964144640, s1) ∧
      139637964144640 ∈ (heapOf (run 2 linuxOS
          [.alloc 12, .alloc 12, .free 1, .free 0, .alloc 24, .free 2]
          (Heap.empty .FreeList, []))).free_list ∧
      (s1.mem (getHeader (dataOf 139637964144640))).size = align 4 ∧
      s1.mmapCalls = (heapOf (run 2 linuxOS
          [.alloc 12, .alloc 12, .free 1, .free 0, .alloc 24, .free 2]
          (Heap.empty .FreeList, []))).mmapCalls ∧
      s1._brk = (heapOf (run 2 linuxOS
          [.alloc 12, .alloc 12, .free 1, .free 0, .alloc 24, .free 2]
          (Heap.empty .FreeList, [])))._brk) ∧
    canSplit (heapOf (run 2 linuxOS [.alloc 64, .free 0] (Heap.empty .FreeList, [])))
      139637972533248 (align 8) = true ∧
    (∃ s1, alloc 2 linuxOS
        (heapOf (run 2 linuxOS [.alloc 64, .free 0] (Heap.empty .FreeList, []))) 8
          = .ok (dataOf 139637972533248, s1) ∧
      139637972533248 ∈ (heapOf (run 2 linuxOS [.alloc 64, .free 0]
          (Heap.empty .FreeList, []))).free_list ∧
      (s1.mem (getHeader (dataOf 139637972533248))).size = align 8 ∧
      s1.mmapCalls = (heapOf (run 2 linuxOS [.alloc 64, .free 0]
          (Heap.empty .FreeList, []))).mmapCalls ∧
      s1._brk = (heapOf (run 2 linuxOS [.alloc 64, .free 0]
          (Heap.empty .FreeList, [])))._brk) :=
  ⟨by decide,
   c3_freeList_hit_records_aligned_size 2 linuxOS _ 4 139637964144640 (by decide) (by decide)
     ⟨_, rfl⟩ (by decide),
   by decide,
   c3_freeList_hit_records_aligned_size 2 linuxOS _ 8 139637972533248 (by decide) (by decide)
     ⟨_, rfl⟩ (by decide)⟩

/-! ## C4 -/

/-- Claim C4 (the code departs from it).  After `alloc(8); alloc(8)` on an empty heap the
master list has two blocks and the first does not end where the second begins: the
second block is the base of a mapping of its own, `2 * arenaSize` below the first,
because `_sbrk` maps a new region at every call.  The tail does not end at the break
either. -/
theorem c4_second_block_in_another_mapping :
    ¬ tiled (heapOf (run 2 linuxOS [.alloc 8, .alloc 8] (Heap.empty .FreeList, []))) ∧
    (run 2 linuxOS [.alloc 8, .alloc 8] (Heap.empty .FreeList, [])).toOption.map
        (fun r => (nthBlock r.1 0, (r.1.mem (nthBlock r.1 0)).size, nthBlock r.1 1,
          (r.1.mem (nthBlock r.1 1)).size, nthBlock r.1 2, r.1._brk))
      = some (139637972533248, 8, 139637964144640, 8, 0, 139637959950368) := by
  constructor
  · intro h
    exact absurd (h 0 (by decide)) (by decide)
  · decide

/-! ## C5 -/

/-- Claim C7 (the code departs from it).  When the search finds nothing and
`requestFromOS` returns `nullptr`, `alloc` does not report an allocation failure: its
next step is the store `block->size = size` through the null block. -/
theorem c7_alloc_writes_through_null (fuel : Nat) (os : OS) (s s1 : Heap) (n : Nat)
    (hmiss : findBlock fuel s (align n) = .ok (0, s1))
    (hreq : (requestFromOS os s1 (align n)).1 = 0) :
    alloc fuel os s n = .error .nullDeref := by
  rw [alloc_miss hmiss]
  exact allocFromOS_refused hreq

/-- The request `alloc(4194304)` on an empty heap: `4194304 + 24` bytes exceed the
arena, `_sbrk` answers `(void*)-1`, and `alloc` stores through `nullptr`. -/
theorem c7_alloc_writes_through_null_witness :
    alloc 2 linuxOS (Heap.empty .FreeList) 4194304 = .error .nullDeref :=
  c7_alloc_writes_through_null 2 linuxOS (Heap.empty .FreeList) (Heap.empty .FreeList) 4194304
    rfl (by decide)

/-! ## C9 -/

/-- Claim C9 (the code departs from it).  `init` (and `resetHeap`) leave `free_list` as
it is.  In `FreeList` mode, after `p = alloc(8); free(p); init(FreeList)` the three
list pointers are null but `free_list` still holds the old block, and the next
`alloc(8)` returns `p` again without mapping anything. -/
theorem c9_reset_keeps_free_list :
    (∀ (s : Heap) (mode : SearchMode), (init s mode).free_list = s.free_list ∧
      (resetHeap s).free_list = s.free_list) ∧
    (run 2 linuxOS [.alloc 8, .free 0] (Heap.empty .FreeList, [])).toOption.map
        (fun r => (r.2, (init r.1 .FreeList).heapStart, (init r.1 .FreeList).top,
          (init r.1 .FreeList).searchStart, (init r.1 .FreeList).free_list,
          (init r.1 .FreeList).mmapCalls,
          (alloc 2 linuxOS (init r.1 .FreeList) 8).toOption.map
            (fun q => (q.1, q.2.mmapCalls))))
      = some ([139637972533272], 0, 0, 0, [139637972533248], 2,
          some (139637972533272, 2)) := by
  constructor
  · intro s mode
    unfold init resetHeap
    constructor <;> split_ifs <;> dsimp only
  · rfl

/-! ## C10 -/

/-- Claim C10 (the code departs from it).  Every `requestFromOS` makes two fresh
mappings and returns the base of the first one (or `nullptr`), whatever the break
was before the call.  On an empty heap, two requests of 8 bytes return addresses
`2 * arenaSize` apart, not `allocSize(8) = 32`; the second does not return the break
the first one left, and the break after the second is lower than after the first. -/
theorem c10_every_request_maps_anew :
    (∀ (os : OS) (s : Heap) (size : Nat),
      (requestFromOS os s size).2.mmapCalls = s.mmapCalls + 2 ∧
      ((requestFromOS os s size).1 = 0 ∨
        (requestFromOS os s size).1 = os.mmapAddr s.mmapCalls % W)) ∧
    allocSize 8 = 32 ∧
    (requestFromOS linuxOS (Heap.empty .FreeList) 8).1 = 139637972533248 ∧
    (requestFromOS linuxOS (Heap.empty .FreeList) 8).2._brk = 139637968338976 ∧
    (requestFromOS linuxOS (requestFromOS linuxOS (Heap.empty .FreeList) 8).2 8).1
      = 139637964144640 ∧
    (requestFromOS linuxOS (requestFromOS linuxOS (Heap.empty .FreeList) 8).2 8).2._brk
      = 139637959950368 := by
  refine ⟨?_, by decide, by decide, by decide, by decide, by decide⟩
  intro os s size
  refine ⟨requestFromOS_mmapCalls os s size, ?_⟩
  rw [requestFromOS_fst, sbrk_zero_fst]
  split_ifs
  · exact Or.inl rfl
  · exact Or.inr rfl


theorem canSplit_false_of_le (s : Heap) (b sz : Nat)
    (h : (s.mem b).size ≤ sz + 2 * headerSize) (hsz : sz ≤ 2 ^ 62) :
    canSplit s b sz = false := by
  have e : (sz + 2 * sizeofBlock - 2 * sizeofWord) % W = sz + 2 * sizeofBlock - 2 * sizeofWord := by
    apply Nat.mod_eq_of_lt
    unfold sizeofBlock sizeofWord W
    omega
  unfold canSplit
  rw [e, decide_eq_false_iff_not]
  unfold headerSize sizeofBlock sizeofData at h
  unfold sizeofBlock sizeofWord
  omega

/-- The rest header that `split` writes for a block at a mapping base lies inside that
mapping when `sizeof(Block) * size + headerSize` does not exceed the mapping. -/
theorem split_rest_inside (s : Heap) {X C : Nat} (hX0 : X ≠ 0) (hX : X + arenaSize ≤ 2 ^ 63)
    (hmem : X % W ∈ s.mapped) (hfit : sizeofBlock * C + headerSize ≤ arenaSize) :
    (X + sizeofBlock * ((C + sizeofPtr - sizeofWord) % W)) % W ≠ 0 ∧
    s.headerMapped ((X + sizeofBlock * ((C + sizeofPtr - sizeofWord) % W)) % W) = true := by
  have e0 : X % W = X := mod_W_of_le (by omega)
  have e1 : (C + sizeofPtr - sizeofWord) % W = C := by
    unfold sizeofPtr sizeofWord
    apply Nat.mod_eq_of_lt
    unfold arenaSize sizeofBlock at hfit
    unfold W
    omega
  have ep : (X + sizeofBlock * C) % W = X + sizeofBlock * C := by
    apply Nat.mod_eq_of_lt
    unfold arenaSize at hfit hX
    unfold W
    omega
  rw [e1, ep]
  refine ⟨by omega, ?_⟩
  unfold Heap.headerMapped
  rw [List.any_eq_true]
  refine ⟨X % W, hmem, ?_⟩
  rw [e0]
  simp only [Bool.and_eq_true, decide_eq_true_eq]
  constructor
  · omega
  · omega

/-! ## C2 -/

/-- Claim C2, as stated, fails for requests the arena cannot hold and, in `FreeList`
mode, when the last `alloc` splits the merged block and the rest header falls outside
the mapped regions.  In `FirstFit` mode with `a = 4194304`, `b = c = 8` the first
`alloc` stores through the null block, and with `a = 8`, `b = 4194304`, `c = 8` the
second one does.  In `FreeList` mode with `a = 4000000`, `b = 8`, `c = 2000000` the
last `alloc` splits the merged block of size 4000008 and writes the rest header
`32 * 2000000` bytes above it. -/
theorem c2_counterexample :
    (align 8 ≤ align 4194304 + align 8 ∧
      mergeTest 2 linuxOS .FirstFit 4194304 8 8 = .error .nullDeref) ∧
    (align 8 ≤ align 8 + align 4194304 ∧
      mergeTest 2 linuxOS .FirstFit 8 4194304 8 = .error .nullDeref) ∧
    (align 2000000 ≤ align 4000000 + align 8 ∧ align 8 < align 2000000 ∧
      mergeTest 2 linuxOS .FreeList 4000000 8 2000000 = .error .unmapped) :=
  ⟨⟨by decide, rfl⟩, ⟨by decide, rfl⟩, ⟨by decide, by decide, rfl⟩⟩

/-- Claim C2, amended.  On a well-behaved system, starting from the empty heap, for
request sizes `a`, `b` that the arena can hold and `c` with
`align(c) ≤ align(a) + align(b)`: `p1 = alloc(a); p2 = alloc(b); free(p2); free(p1);
p3 = alloc(c)` gives `p3 == p1`, and the last `alloc` maps nothing and leaves the break
where it was.  This holds in `FirstFit` mode, and in `FreeList` mode when also
`align(b) < align(c)` and either the merged block is not split
(`align(a) + align(b) ≤ align(c) + 2 * headerSize`) or the rest header that `split`
writes `sizeof(Block) * align(c)` bytes above the block lies inside the block's mapping
(`sizeof(Block) * align(c) + headerSize ≤ arenaSize`). -/
theorem c2_merge_then_reuse (fuel : Nat) (os : OS) (mode : SearchMode) (a b c : Nat)
    (hos : os.wellBehaved 4) (hfuel : 2 ≤ fuel)
    (ha : align a + headerSize ≤ arenaSize) (hb : align b + headerSize ≤ arenaSize)
    (hc : align c ≤ align a + align b)
    (hmode : mode = .FirstFit ∨ (mode = .FreeList ∧ align b < align c ∧
      (align a + align b ≤ align c + 2 * headerSize ∨
        sizeofBlock * align c + headerSize ≤ arenaSize))) :
    ∃ p2 s4 s5, mergeTest fuel os mode a b c
        = .ok (dataOf (os.mmapAddr 0), p2, dataOf (os.mmapAddr 0), s4, s5) ∧
      s5.mmapCalls = s4.mmapCalls ∧ s5._brk = s4._brk ∧ s5.arena = s4.arena := by
  obtain ⟨f, rfl⟩ : ∃ f, fuel = f + 2 := ⟨fuel - 2, by omega⟩
  obtain ⟨n0, l0, -⟩ := wellBehaved_at hos (show 0 < 4 by omega)
  obtain ⟨-, l1, i1⟩ := wellBehaved_at hos (show 1 < 4 by omega)
  obtain ⟨n2, l2, -⟩ := wellBehaved_at hos (show 2 < 4 by omega)
  obtain ⟨-, l3, i3⟩ := wellBehaved_at hos (show 3 < 4 by omega)
  have hne : os.mmapAddr 0 ≠ os.mmapAddr 2 := wellBehaved_ne hos (by omega) (by omega)
  have hne2 : os.mmapAddr 2 ≠ os.mmapAddr 0 := fun h => hne h.symm
  have hmodes : mode = .FirstFit ∨ mode = .FreeList := by
    rcases hmode with h | h
    · exact Or.inl h
    · exact Or.inr h.1
  -- p1 = alloc(a)
  have miss0 : findBlock (f + 2) (Heap.empty mode) (align a) = .ok (0, Heap.empty mode) := by
    rcases hmodes with h | h
    · rw [findBlock_firstFit (by simp [h]), firstFit, empty_heapStart, firstFitLoop_null]; rfl
    · rw [findBlock_freeList (by simp [h]), empty_free_list]; rfl
  obtain ⟨S1, hA1, hs1, t1, c1, fl1, m1, sz1, u1, nx1, mp1⟩ :=
    alloc_extend_spec os miss0 n0 l0 l1 i1 ha
  simp only [empty_mmapCalls, empty_heapStart, empty_top, empty_free_list, empty_searchMode,
    empty_mem_size, empty_mem_used, empty_mem_next, if_true, Nat.zero_add, ne_eq,
    not_true_eq_false, false_and, if_false] at hA1 hs1 t1 c1 fl1 m1 sz1 u1 nx1
  have hmem1 : os.mmapAddr 0 % W ∈ S1.mapped := by
    rw [mp1]
    simp
  -- p2 = alloc(b)
  have miss1 : findBlock (f + 2) S1 (align b) = .ok (0, S1) := by
    rcases hmodes with h | h
    · rw [findBlock_firstFit (m1.trans h), firstFit, hs1,
        firstFitLoop_skip n0 (by simp [u1]), nx1, firstFitLoop_null]
      rfl
    · rw [findBlock_freeList (m1.trans h), fl1]
      rfl
  obtain ⟨S2, hA2, hs2, t2, c2, fl2, m2, sz2, u2, nx2, mp2⟩ :=
    alloc_extend_spec os miss1 (by rw [c1]; exact n2) (by rw [c1]; exact l2)
      (by rw [c1]; exact l3) (by rw [c1]; exact i3) hb
  simp only [c1, hs1, t1, fl1, m1, sz1, u1, nx1, n0, if_false, ne_eq, not_false_eq_true,
    true_and] at hA2 hs2 t2 c2 fl2 m2 sz2 u2 nx2
  have hmem2 : os.mmapAddr 0 % W ∈ S2.mapped := by
    rw [mp2]
    exact List.mem_cons_of_mem _ (List.mem_cons_of_mem _ hmem1)
  -- free(p2)
  have cc2 : canCoalesce S2 (os.mmapAddr 2) = false := by
    unfold canCoalesce
    simp [nx2, hne2]
  obtain ⟨S3, hF3, fl3, hs3, t3, c3, m3, sz3, u3, nx3, mp3⟩ :=
    free_plain_spec n2 (by omega) cc2
  simp only [fl2, hs2, t2, c2, m2, sz2, u2, nx2, List.nil_append] at fl3 hs3 t3 c3 m3 sz3 u3 nx3
  -- free(p1)
  have cc3 : canCoalesce S3 (os.mmapAddr 0) = true := by
    unfold canCoalesce
    simp [nx3, u3, n2]
  obtain ⟨S4, hF4, fl4, hs4, t4, c4, m4, sz4, u4, nx4, mp4⟩ :=
    free_merge_spec n0 (by omega) cc3
  have hmem4 : os.mmapAddr 0 % W ∈ S4.mapped := by
    rw [mp4, mp3]
    exact hmem2
  simp only [fl3, hs3, t3, c3, m3, sz3, u3, nx3, if_true, hne, hne2, if_false,
    List.singleton_append] at fl4 hs4 t4 c4 m4 sz4 u4 nx4
  have hAB : (align a + align b) % W = align a + align b := by
    apply Nat.mod_eq_of_lt
    unfold arenaSize at ha hb
    unfold W
    omega
  rw [hAB] at sz4
  have hsmall : align c ≤ 2 ^ 62 := by
    unfold arenaSize at ha hb
    omega
  -- p3 = alloc(c)
  have hit : ∃ S5, findBlock (f + 2) S4 (align c) = .ok (os.mmapAddr 0, S5) ∧
      S5.mmapCalls = S4.mmapCalls ∧ S5._brk = S4._brk ∧ S5.arena = S4.arena := by
    rcases hmode with h | ⟨h, hbc, hsplit⟩
    · refine ⟨S4, ?_, rfl, rfl, rfl⟩
      rw [findBlock_firstFit (m4.trans h), firstFit, hs4,
        firstFitLoop_take n0 (by simp [u4]) (by rw [sz4]; simp; exact hc)]
      rfl
    · have hp : canSplit
          { S4 with free_list := S4.free_list.filter (fun x => x != os.mmapAddr 0) }
          (os.mmapAddr 0) (align c) = true →
          (os.mmapAddr 0 + sizeofBlock * ((align c + sizeofPtr - sizeofWord) % W)) % W ≠ 0 ∧
          Heap.headerMapped
            { S4 with free_list := S4.free_list.filter (fun x => x != os.mmapAddr 0) }
            ((os.mmapAddr 0 + sizeofBlock * ((align c + sizeofPtr - sizeofWord) % W)) % W)
            = true := by
        intro hcs
        rcases hsplit with h1 | h1
        · have hno := canSplit_false_of_le
            { S4 with free_list := S4.free_list.filter (fun x => x != os.mmapAddr 0) }
            (os.mmapAddr 0) (align c) (by rw [sz4, if_pos rfl]; exact h1) hsmall
          rw [hno] at hcs
          cases hcs
        · exact split_rest_inside _ n0 l0 hmem4 h1
      obtain ⟨S5, h5⟩ := listAllocate_ok
        { S4 with free_list := S4.free_list.filter (fun x => x != os.mmapAddr 0) }
        (os.mmapAddr 0) (align c) hp
      have hspec := listAllocate_spec h5
      refine ⟨S5, ?_, hspec.2.2.2.2.2.1, hspec.2.2.2.2.2.2.1, hspec.2.2.2.2.2.2.2.1⟩
      rw [findBlock_freeList (m4.trans h), fl4]
      unfold freeListScan
      rw [if_neg n2, if_pos (by rw [sz4]; simp [hne2]; exact hbc)]
      unfold freeListScan
      rw [if_neg n0, if_neg (by rw [sz4]; simp; exact hc)]
      exact h5
  obtain ⟨S5, h5, e1, e2, e3⟩ := hit
  have hA5 := alloc_hit os h5 n0
  refine ⟨dataOf (os.mmapAddr 2), S4, S5, ?_, e1, e2, e3⟩
  unfold mergeTest
  rw [hA1]
  dsimp only
  rw [hA2]
  dsimp only
  rw [hF3]
  dsimp only
  rw [hF4]
  dsimp only
  rw [hA5]

/-- The merge test of `main` (`a = b = 12`, `c = 24`) in the two modes, and a case in
which the last `alloc` splits the merged block (`a = 1000`, `b = 8`, `c = 16`). -/
theorem c2_merge_then_reuse_witness :
    (∃ p2 s4 s5, mergeTest 2 linuxOS .FirstFit 12 12 24
        = .ok (dataOf (linuxOS.mmapAddr 0), p2, dataOf (linuxOS.mmapAddr 0), s4, s5) ∧
      s5.mmapCalls = s4.mmapCalls ∧ s5._brk = s4._brk ∧ s5.arena = s4.arena) ∧
    (∃ p2 s4 s5, mergeTest 2 linuxOS .FreeList 12 12 24
        = .ok (dataOf (linuxOS.mmapAddr 0), p2, dataOf (linuxOS.mmapAddr 0), s4, s5) ∧
      s5.mmapCalls = s4.mmapCalls ∧ s5._brk = s4._brk ∧ s5.arena = s4.arena) ∧
    (∃ p2 s4 s5, mergeTest 2 linuxOS .FreeList 1000 8 16
        = .ok (dataOf (linuxOS.mmapAddr 0), p2, dataOf (linuxOS.mmapAddr 0), s4, s5) ∧
      s5.mmapCalls = s4.mmapCalls ∧ s5._brk = s4._brk ∧ s5.arena = s4.arena) :=
  ⟨c2_merge_then_reuse 2 linuxOS .FirstFit 12 12 24 (by decide) (by decide) (by decide)
      (by decide) (by decide) (Or.inl rfl),
   c2_merge_then_reuse 2 linuxOS .FreeList 12 12 24 (by decide) (by decide) (by decide)
      (by decide) (by decide) (Or.inr ⟨rfl, by decide, Or.inl (by decide)⟩),
   c2_merge_then_reuse 2 linuxOS .FreeList 1000 8 16 (by decide) (by decide) (by decide)
      (by decide) (by decide) (Or.inr ⟨rfl, by decide, Or.inr (by decide)⟩)⟩

/-! ## C6 -/

theorem listAllocate_nosplit {s : Heap} {b sz : Nat} (h : canSplit s b sz = false) :
    listAllocate s b sz = .ok (b, (s.setUsed b true).setSize b sz) := by
  unfold listAllocate
  rw [if_neg (by simp [h])]

theorem canCoalesce_tail {s : Heap} {b : Nat} (h : (s.mem b).next = 0) :
    canCoalesce s b = false := by
  unfold canCoalesce
  simp [h]

/-- One more round trip on a settled heap: the search hits `X`, nothing is mapped, and
the heap is settled again. -/
theorem roundTrip_settled (f : Nat) (os : OS) {mode : SearchMode} {n X : Nat} {s : Heap}
    (hX0 : X ≠ 0) (hXle : X ≤ 2 ^ 63) (hn : align n + headerSize ≤ arenaSize)
    (hmode : mode = .FirstFit ∨ mode = .BestFit ∨ mode = .FreeList)
    (h : settled X (align n) mode s) :
    ∃ s1 s2, alloc (f + 2) os s n = .ok (dataOf X, s1) ∧ free s1 (dataOf X) = .ok s2 ∧
      settled X (align n) mode s2 := by
  obtain ⟨hm, hhs, hcalls, hsz, hu, hnx, hfl, hne⟩ := h
  rcases hmode with h | h | h
  · -- FirstFit
    have hfind : findBlock (f + 2) s (align n) = .ok (X, s) := by
      rw [findBlock_firstFit (hm.trans h), firstFit, hhs,
        firstFitLoop_take hX0 hu (by rw [hsz])]
      rfl
    obtain ⟨S, hF, fl, hs, _, c, m, sz, u, nx, -⟩ := free_plain_spec (s := s) hX0 hXle
      (canCoalesce_tail hnx)
    refine ⟨s, S, alloc_hit os hfind hX0, hF, m.trans hm, hs.trans hhs, c.trans hcalls, ?_, ?_, ?_,
      ?_, ?_⟩
    · rw [sz, hsz]
    · rw [u]; simp
    · rw [nx, hnx]
    · intro x hx
      rw [fl] at hx
      rcases List.mem_append.mp hx with hx | hx
      · exact hfl x hx
      · simpa using hx
    · intro _
      rw [fl]
      simp
  · -- BestFit
    have hfind : findBlock (f + 2) s (align n) = .ok (X, s) := by
      rw [findBlock_bestFit (hm.trans h), bestFit, hhs,
        bestFitLoop_first hX0 hu (by rw [hsz]), hnx, bestFitLoop_null]
      rfl
    obtain ⟨S, hF, fl, hs, _, c, m, sz, u, nx, -⟩ := free_plain_spec (s := s) hX0 hXle
      (canCoalesce_tail hnx)
    refine ⟨s, S, alloc_hit os hfind hX0, hF, m.trans hm, hs.trans hhs, c.trans hcalls, ?_, ?_, ?_,
      ?_, ?_⟩
    · rw [sz, hsz]
    · rw [u]; simp
    · rw [nx, hnx]
    · intro x hx
      rw [fl] at hx
      rcases List.mem_append.mp hx with hx | hx
      · exact hfl x hx
      · simpa using hx
    · intro _
      rw [fl]
      simp
  · -- FreeList
    have hne2 := hne h
    obtain ⟨x, rest, hl⟩ : ∃ x rest, s.free_list = x :: rest := by
      cases hfl2 : s.free_list with
      | nil => exact absurd hfl2 hne2
      | cons x rest => exact ⟨x, rest, rfl⟩
    have hx : x = X := hfl x (by rw [hl]; exact List.mem_cons_self _ _)
    subst hx
    have hfilter : s.free_list.filter (fun y => y != x) = [] := by
      rw [List.filter_eq_nil_iff]
      intro y hy
      simp [hfl y hy]
    have hns : canSplit { s with free_list := s.free_list.filter (fun y => y != x) } x (align n)
        = false := by
      unfold canSplit
      have e : (align n + 2 * sizeofBlock - 2 * sizeofWord) % W
          = align n + 2 * sizeofBlock - 2 * sizeofWord := by
        apply Nat.mod_eq_of_lt
        unfold arenaSize at hn
        unfold sizeofBlock sizeofWord W
        omega
      rw [e]
      dsimp only
      rw [hsz]
      unfold sizeofBlock sizeofWord
      simp
    have hfind : findBlock (f + 2) s (align n) = .ok (x,
        ({ s with free_list := s.free_list.filter (fun y => y != x) }.setUsed x true).setSize x
          (align n)) := by
      rw [findBlock_freeList (hm.trans h)]
      conv => lhs; rw [hl]
      unfold freeListScan
      rw [if_neg hX0, if_neg (by rw [hsz]; omega)]
      exact listAllocate_nosplit hns
    obtain ⟨S, hF, fl, hs, _, c, m, sz, u, nx, -⟩ := free_plain_spec
      (s := ({ s with free_list := s.free_list.filter (fun y => y != x) }.setUsed x true).setSize x
          (align n)) hX0 hXle (canCoalesce_tail (by simpa using hnx))
    refine ⟨_, S, alloc_hit os hfind hX0, hF, ?_, ?_, ?_, ?_, ?_, ?_, ?_, ?_⟩
    · rw [m]; simpa using hm
    · rw [hs]; simpa using hhs
    · rw [c]; simpa using hcalls
    · rw [sz]; simp
    · rw [u]; simp
    · rw [nx]; simpa using hnx
    · intro y hy
      rw [fl] at hy
      simp [hfilter] at hy
      exact hy
    · intro _
      rw [fl]
      simp

theorem roundTrips_settled (f : Nat) (os : OS) {mode : SearchMode} {n X : Nat}
    (hX0 : X ≠ 0) (hXle : X ≤ 2 ^ 63) (hn : align n + headerSize ≤ arenaSize)
    (hmode : mode = .FirstFit ∨ mode = .BestFit ∨ mode = .FreeList) (k : Nat) :
    ∀ s, settled X (align n) mode s →
      ∃ s1, roundTrips (f + 2) os n k s = .ok (List.replicate k (dataOf X), s1) ∧
        settled X (align n) mode s1 := by
  induction k with
  | zero => intro s h; exact ⟨s, rfl, h⟩
  | succ k ih =>
    intro s h
    obtain ⟨s1, s2, hA, hF, h2⟩ := roundTrip_settled f os hX0 hXle hn hmode h
    obtain ⟨s3, hR, h3⟩ := ih s2 h2
    refine ⟨s3, ?_, h3⟩
    unfold roundTrips
    rw [hA]
    dsimp only
    rw [hF]
    dsimp only
    rw [hR]
    rfl

/-- Claim C6, as stated, fails: in `SegregatedList` mode and in `NextFit` mode the second
`alloc(8)` of the loop maps again (four mappings after two round trips) and returns a
pointer into the new mapping. -/
theorem c6_counterexample :
    (roundTrips 2 linuxOS 8 2 (Heap.empty .SegregatedList)).toOption.map
        (fun r => (r.1, r.2.mmapCalls)) = some ([139637972533272, 139637964144664], 4) ∧
    (roundTrips 2 linuxOS 8 2 (Heap.empty .NextFit)).toOption.map
        (fun r => (r.1, r.2.mmapCalls)) = some ([139637972533272, 139637964144664], 4) := by
  decide

/-- Claim C6, amended.  In `FirstFit`, `BestFit` and `FreeList` mode, on a well-behaved
system and for a request that the arena can hold, the loop `p = alloc(n); free(p)` run
`k + 1` times from the empty heap returns the same pointer every time, and the two
mappings of the first `alloc` are the only ones made. -/
theorem c6_round_trips_reuse (fuel : Nat) (os : OS) (mode : SearchMode) (n k : Nat)
    (hos : os.wellBehaved 2) (hfuel : 2 ≤ fuel) (hn : align n + headerSize ≤ arenaSize)
    (hmode : mode = .FirstFit ∨ mode = .BestFit ∨ mode = .FreeList) :
    ∃ s, roundTrips fuel os n (k + 1) (Heap.empty mode)
        = .ok (List.replicate (k + 1) (dataOf (os.mmapAddr 0)), s) ∧ s.mmapCalls = 2 := by
  obtain ⟨f, rfl⟩ : ∃ f, fuel = f + 2 := ⟨fuel - 2, by omega⟩
  obtain ⟨n0, l0, -⟩ := wellBehaved_at hos (show 0 < 2 by omega)
  obtain ⟨-, l1, i1⟩ := wellBehaved_at hos (show 1 < 2 by omega)
  have miss0 : findBlock (f + 2) (Heap.empty mode) (align n) = .ok (0, Heap.empty mode) := by
    rcases hmode with h | h | h
    · rw [findBlock_firstFit (by simp [h]), firstFit, empty_heapStart, firstFitLoop_null]; rfl
    · rw [findBlock_bestFit (by simp [h]), bestFit, empty_heapStart, bestFitLoop_null]; rfl
    · rw [findBlock_freeList (by simp [h]), empty_free_list]; rfl
  obtain ⟨S1, hA1, hs1, t1, c1, fl1, m1, sz1, u1, nx1, -⟩ :=
    alloc_extend_spec os miss0 n0 l0 l1 i1 hn
  simp only [empty_mmapCalls, empty_heapStart, empty_top, empty_free_list, empty_searchMode,
    empty_mem_size, empty_mem_used, empty_mem_next, if_true, Nat.zero_add, ne_eq,
    not_true_eq_false, false_and, if_false] at hA1 hs1 t1 c1 fl1 m1 sz1 u1 nx1
  obtain ⟨S2, hF2, fl2, hs2, _, c2, m2, sz2, u2, nx2, -⟩ :=
    free_plain_spec (s := S1) n0 (by omega) (canCoalesce_tail (nx1 _))
  have hset : settled (os.mmapAddr 0) (align n) mode S2 := by
    refine ⟨m2.trans m1, hs2.trans hs1, c2.trans c1, ?_, ?_, ?_, ?_, ?_⟩
    · rw [sz2, sz1]; simp
    · rw [u2]; simp
    · rw [nx2, nx1]
    · intro x hx
      rw [fl2, fl1] at hx
      simpa using hx
    · intro _
      rw [fl2]
      simp
  obtain ⟨S3, hR, h3⟩ := roundTrips_settled f os n0 (by omega) hn hmode k S2 hset
  refine ⟨S3, ?_, h3.2.2.1⟩
  unfold roundTrips
  rw [hA1]
  dsimp only
  rw [hF2]
  dsimp only
  rw [hR]
  rfl

/-- Three round trips of `alloc(8); free` in the default `FreeList` mode. -/
theorem c6_round_trips_reuse_witness :
    ∃ s, roundTrips 2 linuxOS 8 (2 + 1) (Heap.empty .FreeList)
        = .ok (List.replicate (2 + 1) (dataOf (linuxOS.mmapAddr 0)), s) ∧ s.mmapCalls = 2 :=
  c6_round_trips_reuse 2 linuxOS .FreeList 8 2 (by decide) (by decide) (by decide)
    (Or.inr (Or.inr rfl))

/-! ## C8 -/

/-- Claim C8 (the code departs from it).  On the heap that holds one used block (a
finite, acyclic master list) and the word-aligned request 8, `bestFit` advances to the
null successor and then reads `block->next` through it, so `alloc(8); alloc(8)` in
`BestFit` mode does not return.  `getBucket(56) = 6` and `getBucket(0) = -1` index the
six-entry bucket table out of range, so `alloc(56)` in `SegregatedList` mode does not
return either.  With the cursor on that one used block, `nextFit` never leaves its
loop, whatever the loop budget. -/
theorem c8_search_is_not_total :
    (∀ fuel, bestFit (fuel + 1)
      (heapOf (run 2 linuxOS [.alloc 8] (Heap.empty .BestFit, []))) 8 = .error .nullDeref) ∧
    (∀ fuel, run (fuel + 1) linuxOS [.alloc 8, .alloc 8] (Heap.empty .BestFit, [])
      = .error .nullDeref) ∧
    getBucket 56 = 6 ∧ getBucket 0 = -1 ∧
    (∀ fuel, alloc fuel linuxOS (Heap.empty .SegregatedList) 56 = .error .outOfBounds) ∧
    (∀ fuel, nextFit fuel
      { heapOf (run 2 linuxOS [.alloc 8] (Heap.empty .NextFit, [])) with
        searchStart := (heapOf (run 2 linuxOS [.alloc 8] (Heap.empty .NextFit, []))).heapStart }
      8 = .error .outOfFuel) := by
  refine ⟨fun fuel => rfl, fun fuel => rfl, by decide, by decide, fun fuel => rfl, ?_⟩
  intro fuel
  unfold nextFit
  induction fuel with
  | zero => rfl
  | succ f ih => exact ih

/-! ## C11 -/

theorem land_word_mask (x : Nat) (hx : x < 2 ^ 64) :
    x &&& (2 ^ 64 - (7 + 1)) = 2 ^ 3 * (x / 2 ^ 3) := by
  apply Nat.eq_of_testBit_eq
  intro i
  rw [Nat.testBit_and, Nat.testBit_two_pow_sub_succ (by norm_num), Nat.testBit_mul_pow_two]
  have h7 : Nat.testBit 7 i = decide (i < 3) := Nat.testBit_two_pow_sub_one 3 i
  rw [h7]
  by_cases h3 : i < 3
  · have h3b : ¬ i ≥ 3 := by omega
    simp [h3, h3b]
  · have h3b : i ≥ 3 := by omega
    by_cases h64 : i < 64
    · have e : 3 + (i - 3) = i := by omega
      rw [← Nat.shiftRight_eq_div_pow, Nat.testBit_shiftRight, e]
      simp [h3, h3b, h64]
    · have hlt : x < 2 ^ i :=
        Nat.lt_of_lt_of_le hx (Nat.pow_le_pow_right (by norm_num) (by omega))
      rw [← Nat.shiftRight_eq_div_pow, Nat.testBit_shiftRight]
      have e : 3 + (i - 3) = i := by omega
      rw [e, Nat.testBit_lt_two_pow hlt]
      simp

theorem align_eq {n : Nat} (hn : n + sizeofWord - 1 < W) :
    align n = 8 * ((n + 7) / 8) := by
  unfold sizeofWord W at hn
  have h1 : (n + sizeofWord - 1) % W = n + 7 := by
    unfold sizeofWord W
    exact Nat.mod_eq_of_lt (by omega)
  have h2 : W - 1 - (sizeofWord - 1) = 2 ^ 64 - (7 + 1) := by
    unfold sizeofWord W
    norm_num
  unfold align
  rw [h1, h2, land_word_mask (n + 7) (by omega)]
  norm_num

/-- Claim C11.  For every `n` with `n + sizeof(word_t) - 1` not overflowing, `align(n)` is
a multiple of the word size, `n ≤ align(n)`, `align(n) - n < 8`, and no multiple of
the word size lies between `n` and `align(n)`. -/
theorem c11_align_rounds_up_to_word (n : Nat) (hn : n + sizeofWord - 1 < W) :
    align n % sizeofWord = 0 ∧ n ≤ align n ∧ align n - n < sizeofWord ∧
    ∀ m, m % sizeofWord = 0 → n ≤ m → align n ≤ m := by
  rw [align_eq hn]
  unfold sizeofWord
  refine ⟨by omega, by omega, by omega, ?_⟩
  intro m hm hnm
  omega

/-- The requests of `main`: `align(12) = 16`. -/
theorem c11_align_rounds_up_to_word_witness :
    align 12 = 16 ∧ align 12 % sizeofWord = 0 ∧ 12 ≤ align 12 ∧ align 12 - 12 < sizeofWord ∧
    ∀ m, m % sizeofWord = 0 → 12 ≤ m → align 12 ≤ m :=
  ⟨by decide, c11_align_rounds_up_to_word 12 (by decide)⟩

/-! ## C12 -/

/-- Claim C12.  `getHeader` undoes `block->data` on every 64-bit block address, and
`block->data` undoes `getHeader` on every 64-bit pointer; `getHeader(d)` is `d` less
`headerSize` (in 64-bit arithmetic), with `headerSize = sizeof(Block) - sizeof(data)`
the overhead that `allocSize` adds to a payload size. -/
theorem c12_getHeader_inverts_data :
    (∀ b, getHeader (dataOf (b % W)) = b % W) ∧
    (∀ d, dataOf (getHeader (d % W)) = d % W) ∧
    (∀ d, (getHeader d + headerSize) % W = d % W) ∧
    (∀ d, headerSize ≤ d % W → getHeader (d % W) = d % W - headerSize) ∧
    headerSize = sizeofBlock - sizeofData ∧
    (∀ s, allocSize s = (s + headerSize) % W) ∧
    (∀ s, s + headerSize < W → allocSize s = s + headerSize) := by
  unfold getHeader dataOf allocSize headerSize sizeofBlock sizeofData W
  refine ⟨?_, ?_, ?_, ?_, rfl, ?_, ?_⟩
  · intro b; omega
  · intro d; omega
  · intro d; omega
  · intro d h; omega
  · intro s; omega
  · intro s h; omega

/-! ## C13 -/

theorem walk_null (s : Heap) (k : Nat) : walk s 0 k = 0 := by
  cases k with
  | zero => rfl
  | succ k => rw [walk, if_pos rfl]

theorem walk_succ_last (s : Heap) (k : Nat) :
    ∀ b, walk s b (k + 1) = if walk s b k = 0 then 0 else (s.mem (walk s b k)).next := by
  induction k with
  | zero =>
    intro b
    rw [walk, walk, walk]
  | succ k ih =>
    intro b
    by_cases hb : b = 0
    · subst hb
      rw [walk_null, walk_null, if_pos rfl]
    · rw [walk, if_neg hb, ih, walk, if_neg hb]

theorem nthBlock_eq_walk (s : Heap) (k : Nat) : nthBlock s k = walk s s.heapStart k := by
  induction k with
  | zero => rfl
  | succ k ih => rw [nthBlock, ih, walk_succ_last]

theorem firstFitLoop_spec (s : Heap) (size len : Nat) :
    ∀ b fuel, walk s b len = 0 → len < fuel →
      ∃ r, firstFitLoop s size fuel b = .ok r ∧
        ((r = 0 ∧ ∀ k, walk s b k ≠ 0 → ¬ fits s size (walk s b k)) ∨
         (r ≠ 0 ∧ ∃ k, walk s b k = r ∧ fits s size r ∧
            ∀ j, j < k → ¬ fits s size (walk s b j))) := by
  induction len with
  | zero =>
    intro b fuel hend hfuel
    obtain ⟨f, rfl⟩ : ∃ f, fuel = f + 1 := ⟨fuel - 1, by omega⟩
    rw [walk] at hend
    subst hend
    refine ⟨0, firstFitLoop_null s size f, Or.inl ⟨rfl, ?_⟩⟩
    intro k hk
    exact absurd (walk_null s k) hk
  | succ len ih =>
    intro b fuel hend hfuel
    obtain ⟨f, rfl⟩ : ∃ f, fuel = f + 1 := ⟨fuel - 1, by omega⟩
    by_cases hb : b = 0
    · subst hb
      refine ⟨0, firstFitLoop_null s size f, Or.inl ⟨rfl, ?_⟩⟩
      intro k hk
      exact absurd (walk_null s k) hk
    · rw [walk, if_neg hb] at hend
      by_cases hfit : fits s size b
      · refine ⟨b, firstFitLoop_take hb hfit.1 hfit.2, Or.inr ⟨hb, 0, rfl, hfit, ?_⟩⟩
        intro j hj
        omega
      · have hskip : ((s.mem b).used || decide ((s.mem b).size < size)) = true := by
          unfold fits at hfit
          cases hu : (s.mem b).used with
          | true => simp
          | false =>
            rw [hu] at hfit
            simp at hfit
            simp
            omega
        obtain ⟨r, hr, hcase⟩ := ih (s.mem b).next f hend (by omega)
        refine ⟨r, (firstFitLoop_skip hb hskip).trans hr, ?_⟩
        rcases hcase with ⟨h0, hall⟩ | ⟨h0, k, hk, hfk, hbefore⟩
        · refine Or.inl ⟨h0, ?_⟩
          intro k hk
          cases k with
          | zero => exact hfit
          | succ k =>
            rw [walk, if_neg hb] at hk ⊢
            exact hall k hk
        · refine Or.inr ⟨h0, k + 1, ?_, hfk, ?_⟩
          · rw [walk, if_neg hb]
            exact hk
          · intro j hj
            cases j with
            | zero => exact hfit
            | succ j =>
              rw [walk, if_neg hb]
              exact hbefore j (by omega)

/-- Claim C13.  On a master list that ends within `len` links, `firstFit(size)`, given
a loop budget above `len`, returns: either none, and then no block of the list is free
with `size` or more; or a block of the list that is free with `size` or more, with no
such block before it.  The search writes nothing: in `FirstFit` mode `findBlock`
returns that block together with the unchanged state. -/
theorem c13_firstFit_returns_first_candidate (fuel : Nat) (s : Heap) (size len : Nat)
    (hend : nthBlock s len = 0) (hfuel : len < fuel) :
    ∃ r, firstFit fuel s size = .ok r ∧
      (s.searchMode = .FirstFit → findBlock fuel s size = .ok (r, s)) ∧
      ((r = 0 ∧ ∀ k, nthBlock s k ≠ 0 → ¬ fits s size (nthBlock s k)) ∨
       (r ≠ 0 ∧ ∃ k, nthBlock s k = r ∧ fits s size r ∧
          ∀ j, j < k → ¬ fits s size (nthBlock s j))) := by
  rw [nthBlock_eq_walk] at hend
  obtain ⟨r, hr, hcase⟩ := firstFitLoop_spec s size len s.heapStart fuel hend hfuel
  refine ⟨r, hr, ?_, ?_⟩
  · intro hm
    rw [findBlock_firstFit hm, firstFit, hr]
    rfl
  · simp only [nthBlock_eq_walk]
    exact hcase

/-- The list of two blocks left by `alloc(8); alloc(32); free(p2)` in `FirstFit` mode and
the request 16: the head is used, the second block is free with size 32. -/
theorem c13_firstFit_returns_first_candidate_witness :
    ∃ r, firstFit 3 (heapOf (run 3 linuxOS [.alloc 8, .alloc 32, .free 1]
        (Heap.empty .FirstFit, []))) 16 = .ok r ∧
      ((heapOf (run 3 linuxOS [.alloc 8, .alloc 32, .free 1]
          (Heap.empty .FirstFit, []))).searchMode = .FirstFit →
        findBlock 3 (heapOf (run 3 linuxOS [.alloc 8, .alloc 32, .free 1]
          (Heap.empty .FirstFit, []))) 16
          = .ok (r, heapOf (run 3 linuxOS [.alloc 8, .alloc 32, .free 1]
              (Heap.empty .FirstFit, [])))) ∧
      ((r = 0 ∧ ∀ k, nthBlock (heapOf (run 3 linuxOS [.alloc 8, .alloc 32, .free 1]
            (Heap.empty .FirstFit, []))) k ≠ 0 →
          ¬ fits (heapOf (run 3 linuxOS [.alloc 8, .alloc 32, .free 1]
            (Heap.empty .FirstFit, []))) 16
              (nthBlock (heapOf (run 3 linuxOS [.alloc 8, .alloc 32, .free 1]
                (Heap.empty .FirstFit, []))) k)) ∨
       (r ≠ 0 ∧ ∃ k, nthBlock (heapOf (run 3 linuxOS [.alloc 8, .alloc 32, .free 1]
            (Heap.empty .FirstFit, []))) k = r ∧
          fits (heapOf (run 3 linuxOS [.alloc 8, .alloc 32, .free 1]
            (Heap.empty .FirstFit, []))) 16 r ∧
          ∀ j, j < k → ¬ fits (heapOf (run 3 linuxOS [.alloc 8, .alloc 32, .free 1]
            (Heap.empty .FirstFit, []))) 16
              (nthBlock (heapOf (run 3 linuxOS [.alloc 8, .alloc 32, .free 1]
                (Heap.empty .FirstFit, []))) j))) :=
  c13_firstFit_returns_first_candidate 3 _ 16 2 (by decide) (by decide)

/-! ## C14 -/

/-- Claim C14 (the code departs from it).  `bestFit` compares the `next` links of the
blocks, not their sizes, and does not test the block it has advanced to.  On the list
of two free blocks of sizes 8 and 32 (left by `alloc(8); alloc(32); free(p1); free(p2)`)
the request 8 gets the second block, of size 32, although the head fits exactly.  On
the list of two used blocks the request 8 gets the second block, which is not free.
On the list of one used block `bestFit` does not return none: it reads through the
null successor (the defect of C8). -/
theorem c14_bestFit_is_not_best :
    (run 3 linuxOS [.alloc 8, .alloc 32, .free 0, .free 1] (Heap.empty .FreeList, [])).toOption.map
        (fun r => (nthBlock r.1 0, (r.1.mem (nthBlock r.1 0)).size, (r.1.mem (nthBlock r.1 0)).used,
          nthBlock r.1 1, (r.1.mem (nthBlock r.1 1)).size, (r.1.mem (nthBlock r.1 1)).used,
          nthBlock r.1 2))
      = some (139637972533248, 8, false, 139637964144640, 32, false, 0) ∧
    (∀ fuel, bestFit (fuel + 3)
      (heapOf (run 3 linuxOS [.alloc 8, .alloc 32, .free 0, .free 1] (Heap.empty .FreeList, [])))
      8 = .ok 139637964144640) ∧
    (run 3 linuxOS [.alloc 8, .alloc 8] (Heap.empty .FreeList, [])).toOption.map
        (fun r => (nthBlock r.1 0, (r.1.mem (nthBlock r.1 0)).used,
          nthBlock r.1 1, (r.1.mem (nthBlock r.1 1)).used, nthBlock r.1 2))
      = some (139637972533248, true, 139637964144640, true, 0) ∧
    (∀ fuel, bestFit (fuel + 3)
      (heapOf (run 3 linuxOS [.alloc 8, .alloc 8] (Heap.empty .FreeList, []))) 8
        = .ok 139637964144640) ∧
    (∀ fuel, bestFit (fuel + 1)
      (heapOf (run 3 linuxOS [.alloc 8] (Heap.empty .BestFit, []))) 8 = .error .nullDeref) :=
  ⟨rfl, fun _ => rfl, rfl, fun _ => rfl, fun _ => rfl⟩

/-! ## C15 -/

theorem nextFit_null_cursor (fuel : Nat) (s : Heap) (size : Nat) (h : s.searchStart = 0) :
    nextFit (fuel + 1) s size = .ok (0, s) := by
  unfold nextFit
  rw [h, nextFitLoop, if_pos rfl]

theorem alloc_nextFit_cursor {fuel : Nat} {os : OS} {s s1 : Heap} {n p : Nat}
    (hm : s.searchMode = .NextFit) (hc : s.searchStart = 0)
    (h : alloc fuel os s n = .ok (p, s1)) :
    s1.searchMode = .NextFit ∧ s1.searchStart = 0 := by
  cases fuel with
  | zero =>
    unfold alloc findBlock at h
    rw [hm] at h
    cases h
  | succ f =>
    have hfind : findBlock (f + 1) s (align n) = .ok (0, s) := by
      unfold findBlock
      rw [hm]
      exact nextFit_null_cursor f s (align n) hc
    rw [alloc_miss hfind] at h
    unfold allocFromOS at h
    dsimp only at h
    split_ifs at h
    injection h with h
    injection h with h1 h2
    subst h2
    have hf := linkBlock_frame (requestFromOS os s (align n)).2 (requestFromOS os s (align n)).1
      (align n)
    exact ⟨hf.1.trans ((requestFromOS_searchMode os s (align n)).trans hm),
      hf.2.2.2.2.2.1.trans ((requestFromOS_searchStart os s (align n)).trans hc)⟩

theorem free_cursor {s s1 : Heap} {d : Nat} (h : free s d = .ok s1) :
    s1.searchMode = s.searchMode ∧ s1.searchStart = s.searchStart := by
  unfold free at h
  dsimp only at h
  split_ifs at h
  injection h with h
  subst h
  have hf := freeBlock_frame s (getHeader d)
  exact ⟨hf.1, hf.2.2.2.2.1⟩

theorem run_nextFit_cursor (fuel : Nat) (os : OS) (cs : List Call) :
    ∀ (s : Heap) (ps : List Nat) (s1 : Heap) (ps1 : List Nat),
      s.searchMode = .NextFit → s.searchStart = 0 →
      run fuel os cs (s, ps) = .ok (s1, ps1) →
      s1.searchMode = .NextFit ∧ s1.searchStart = 0 := by
  induction cs with
  | nil =>
    intro s ps s1 ps1 hm hc h
    unfold run at h
    injection h with h
    injection h with h1 h2
    subst h1
    exact ⟨hm, hc⟩
  | cons c cs ih =>
    intro s ps s1 ps1 hm hc h
    cases c with
    | alloc n =>
      unfold run at h
      cases ha : alloc fuel os s n with
      | error e => rw [ha] at h; cases h
      | ok r =>
        obtain ⟨p, s2⟩ := r
        rw [ha] at h
        dsimp only at h
        have := alloc_nextFit_cursor hm hc ha
        exact ih s2 _ s1 ps1 this.1 this.2 h
    | free i =>
      unfold run at h
      cases hf : free s (ps.getD i 0) with
      | error e => rw [hf] at h; cases h
      | ok s2 =>
        rw [hf] at h
        dsimp only at h
        have := free_cursor hf
        exact ih s2 _ s1 ps1 (this.1.trans hm) (this.2.trans hc) h

/-- Claim C15 (the code departs from it).  In `NextFit` mode the cursor `searchStart` is
null in every state reached from the empty heap by `alloc` and `free` calls, and with a
null cursor `nextFit` returns none for every size without looking at any block. -/
theorem c15_nextFit_never_finds (fuel : Nat) (os : OS) (cs : List Call) (s : Heap)
    (ps : List Nat) (hrun : run fuel os cs (Heap.empty .NextFit, []) = .ok (s, ps)) :
    s.searchMode = .NextFit ∧ s.searchStart = 0 ∧
    ∀ f size, nextFit (f + 1) s size = .ok (0, s) := by
  have h := run_nextFit_cursor fuel os cs (Heap.empty .NextFit) [] s ps rfl rfl hrun
  exact ⟨h.1, h.2, fun f size => nextFit_null_cursor f s size h.2⟩

/-- After `p = alloc(8); free(p)` in `NextFit` mode the head of the master list is free
with size 8, and `nextFit(8)` returns none. -/
theorem c15_nextFit_never_finds_witness :
    fits (heapOf (run 3 linuxOS [.alloc 8, .free 0] (Heap.empty .NextFit, []))) 8
      (nthBlock (heapOf (run 3 linuxOS [.alloc 8, .free 0] (Heap.empty .NextFit, []))) 0) ∧
    nthBlock (heapOf (run 3 linuxOS [.alloc 8, .free 0] (Heap.empty .NextFit, []))) 0 ≠ 0 ∧
    (heapOf (run 3 linuxOS [.alloc 8, .free 0] (Heap.empty .NextFit, []))).searchMode
      = .NextFit ∧
    (heapOf (run 3 linuxOS [.alloc 8, .free 0] (Heap.empty .NextFit, []))).searchStart = 0 ∧
    ∀ f size, nextFit (f + 1)
      (heapOf (run 3 linuxOS [.alloc 8, .free 0] (Heap.empty .NextFit, []))) size
        = .ok (0, heapOf (run 3 linuxOS [.alloc 8, .free 0] (Heap.empty .NextFit, []))) :=
  ⟨by decide, by decide,
   c15_nextFit_never_finds 3 linuxOS [.alloc 8, .free 0] _
     (pointersOf (run 3 linuxOS [.alloc 8, .free 0] (Heap.empty .NextFit, []))) rfl⟩

/-! ## C16 -/

/-- Claim C16 (the code departs from it).  In `FreeList` mode, `p = alloc(64); free(p);
alloc(8)` splits the free block of size `S = 64` at `A = 139637972533248` for the
request `R = 8` (`canSplit` holds: `64 > 8 + 48`).  Afterwards the block is used with
size 8 and its `next` is a free block whose `next` is the old successor (none), but
that block lies at `A + sizeof(Block) * R = A + 256`, not at `A + headerSize + R`, and
its size is `S - R = 56`, not `S - R - headerSize = 32`. -/
theorem c16_split_misplaces_the_rest :
    (run 3 linuxOS [.alloc 64, .free 0] (Heap.empty .FreeList, [])).toOption.map
        (fun r => (nthBlock r.1 0, (r.1.mem (nthBlock r.1 0)).size,
          (r.1.mem (nthBlock r.1 0)).used, (r.1.mem (nthBlock r.1 0)).next,
          canSplit r.1 (nthBlock r.1 0) (align 8)))
      = some (139637972533248, 64, false, 0, true) ∧
    (run 3 linuxOS [.alloc 64, .free 0, .alloc 8] (Heap.empty .FreeList, [])).toOption.map
        (fun r => (r.2, (r.1.mem 139637972533248).size, (r.1.mem 139637972533248).used,
          (r.1.mem 139637972533248).next,
          (r.1.mem (r.1.mem 139637972533248).next).size,
          (r.1.mem (r.1.mem 139637972533248).next).used,
          (r.1.mem (r.1.mem 139637972533248).next).next))
      = some ([139637972533272, 139637972533272], 8, true, 139637972533248 + 256, 56, false, 0) ∧
    139637972533248 + 256 ≠ 139637972533248 + headerSize + 8 ∧
    56 ≠ 64 - 8 - headerSize :=
  ⟨rfl, rfl, by decide, by decide⟩

/-! ## C17 -/

/-- Claim C17 (the code departs from it).  `coalesce(b)` leaves `b.next` equal to the
successor's `next`, as claimed, but `b.size` is the sum of the two payload sizes only:
the successor's header overhead is not added.  In the merge test of `main` the two
blocks of size 16 become one block of size 32, not `16 + 16 + headerSize = 56`. -/
theorem c17_coalesce_drops_the_header :
    (∀ (s : Heap) (b : Nat),
      ((coalesce s b).mem b).size = ((s.mem b).size + (s.mem (s.mem b).next).size) % W ∧
      ((coalesce s b).mem b).next = (s.mem (s.mem b).next).next) ∧
    (run 3 linuxOS [.alloc 12, .alloc 12, .free 1] (Heap.empty .FreeList, [])).toOption.map
        (fun r => ((r.1.mem (nthBlock r.1 0)).size, (r.1.mem (nthBlock r.1 1)).size,
          (r.1.mem (nthBlock r.1 1)).used, canCoalesce r.1 (nthBlock r.1 0)))
      = some (16, 16, false, true) ∧
    (run 3 linuxOS [.alloc 12, .alloc 12, .free 1, .free 0] (Heap.empty .FreeList, [])).toOption.map
        (fun r => ((r.1.mem (nthBlock r.1 0)).size, nthBlock r.1 1))
      = some (32, 0) ∧
    16 + 16 + headerSize = 56 := by
  refine ⟨?_, rfl, rfl, by decide⟩
  intro s b
  constructor
  · rw [coalesce_mem_size, if_pos rfl]
  · rw [coalesce_mem_next, if_pos rfl]

/-! ## C18 -/

/-- Claim C18 (the code departs from it).  In `FreeList` mode, after `p1 = alloc(12);
p2 = alloc(12); free(p2); free(p1)` the master list is the single merged block, yet
`top` still points at the absorbed block.  The next `alloc(64)` extends the arena and
links the new block behind that stale `top`: the new block is `top`, it is not null,
and no block of the master list is `top`. -/
theorem c18_top_is_not_the_tail :
    (heapOf (run 3 linuxOS [.alloc 12, .alloc 12, .free 1, .free 0]
      (Heap.empty .FreeList, []))).top = 139637964144640 ∧
    (∀ k, nthBlock (heapOf (run 3 linuxOS [.alloc 12, .alloc 12, .free 1, .free 0]
      (Heap.empty .FreeList, []))) k ≠ 139637964144640) ∧
    (run 3 linuxOS [.alloc 12, .alloc 12, .free 1, .free 0, .alloc 64]
      (Heap.empty .FreeList, [])).toOption.map
        (fun r => (r.1.mmapCalls, r.1.top, r.2.map getHeader, nthBlock r.1 0))
      = some (6, 139637955756032,
          [139637972533248, 139637964144640, 139637955756032], 139637972533248) ∧
    (∀ k, nthBlock (heapOf (run 3 linuxOS [.alloc 12, .alloc 12, .free 1, .free 0, .alloc 64]
      (Heap.empty .FreeList, []))) k ≠ 139637955756032) := by
  have h1 : ∀ k, nthBlock (heapOf (run 3 linuxOS [.alloc 12, .alloc 12, .free 1, .free 0]
      (Heap.empty .FreeList, []))) (k + 1) = 0 := by
    intro k
    induction k with
    | zero => rfl
    | succ k ih => rw [nthBlock, ih, if_pos rfl]
  have h2 : ∀ k, nthBlock (heapOf (run 3 linuxOS
      [.alloc 12, .alloc 12, .free 1, .free 0, .alloc 64]
      (Heap.empty .FreeList, []))) (k + 1) = 0 := by
    intro k
    induction k with
    | zero => rfl
    | succ k ih => rw [nthBlock, ih, if_pos rfl]
  refine ⟨rfl, ?_, rfl, ?_⟩
  · intro k
    cases k with
    | zero => decide
    | succ k => rw [h1]; decide
  · intro k
    cases k with
    | zero => decide
    | succ k => rw [h2]; decide

/-! ## C19 -/

/-- Claim C19 (the code departs from it).  In `FreeList` mode, after `p1 = alloc(12);
p2 = alloc(12); free(p2); free(p1)` the block of `p2` has been absorbed by `coalesce`
and is on the master list no more, but it is still the first entry of `free_list`;
the next `alloc(12)` hands it out (it returns `p2`). -/
theorem c19_absorbed_block_stays_in_free_list :
    (heapOf (run 3 linuxOS [.alloc 12, .alloc 12, .free 1, .free 0]
      (Heap.empty .FreeList, []))).free_list = [139637964144640, 139637972533248] ∧
    (∀ k, nthBlock (heapOf (run 3 linuxOS [.alloc 12, .alloc 12, .free 1, .free 0]
      (Heap.empty .FreeList, []))) k ≠ 139637964144640) ∧
    (run 3 linuxOS [.alloc 12, .alloc 12, .free 1, .free 0, .alloc 12]
      (Heap.empty .FreeList, [])).toOption.map
        (fun r => (r.2, r.1.mmapCalls, r.2.map getHeader, nthBlock r.1 0, nthBlock r.1 1))
      = some ([139637972533272, 139637964144664, 139637964144664], 4,
          [139637972533248, 139637964144640, 139637964144640], 139637972533248, 0) := by
  have h1 : ∀ k, nthBlock (heapOf (run 3 linuxOS [.alloc 12, .alloc 12, .free 1, .free 0]
      (Heap.empty .FreeList, []))) (k + 1) = 0 := by
    intro k
    induction k with
    | zero => rfl
    | succ k ih => rw [nthBlock, ih, if_pos rfl]
  refine ⟨rfl, ?_, rfl⟩
  intro k
  cases k with
  | zero => decide
  | succ k => rw [h1]; decide

/-! ## C20 -/

/-- Claim C20 (the code departs from it).  In `FreeList` mode, `p = alloc(64); free(p);
alloc(0)` splits the free block for the request 0: the rest is placed at
`block + sizeof(Block) * 0`, the block itself, so the block becomes its own successor.
Every block of the master list is then that block, the list never ends, and `firstFit`
does not finish within any loop budget. -/
theorem c20_alloc_zero_makes_a_cycle :
    (run 3 linuxOS [.alloc 64, .free 0, .alloc 0] (Heap.empty .FreeList, [])).toOption.map
        (fun r => (r.2, r.1.heapStart, (r.1.mem r.1.heapStart).next,
          (r.1.mem r.1.heapStart).used, (r.1.mem r.1.heapStart).size))
      = some ([139637972533272, 139637972533272], 139637972533248, 139637972533248, true, 0) ∧
    (∀ k, nthBlock (heapOf (run 3 linuxOS [.alloc 64, .free 0, .alloc 0]
      (Heap.empty .FreeList, []))) k = 139637972533248) ∧
    (∀ fuel, firstFit fuel (heapOf (run 3 linuxOS [.alloc 64, .free 0, .alloc 0]
      (Heap.empty .FreeList, []))) 8 = .error .outOfFuel) := by
  refine ⟨rfl, ?_, ?_⟩
  · intro k
    induction k with
    | zero => rfl
    | succ k ih =>
      rw [nthBlock, ih]
      rfl
  · intro fuel
    unfold firstFit
    induction fuel with
    | zero => rfl
    | succ f ih => exact ih

end MemoryAllocator
